import Mathlib

/-!
Shallow embedding of the `kaitoimai/architecture-sample` edge API gateway
(Go sources under `go/api-gateway` and `go/rest`), together with proofs about
the embedded operations.

Conventions used throughout:
* Go `time.Time` values carrying a unix instant are modelled as `Int` seconds;
  the `time.Time` zero value (returned by the session repository when no
  revocation marker exists) is modelled as `Option.none`.
* Go `map[string]T` values are modelled as association lists
  (`List (String × T)`) with first-occurrence lookup.  Go map *iteration*
  order is unspecified at runtime; in the model the list order records
  insertion order and stands for one possible iteration order.
* Fallible Go functions returning `error` are modelled with `Option`/`Except`.
-/

set_option autoImplicit false

namespace ArchSample

/-! ### Association-list operations (model of Go `map[string]T` access) -/

/-- First-occurrence lookup in an association list; model of Go `m[key]`. -/
def alookup {α : Type} : List (String × α) → String → Option α
  | [], _ => none
  | (k, v) :: rest, key => if k = key then some v else alookup rest key

/-- Replace the value stored at `key` (first occurrence); used to model
updating an existing entry of a Go map. -/
def aupdate {α : Type} : List (String × α) → String → α → List (String × α)
  | [], _, _ => []
  | (k, v) :: rest, key, nv =>
    if k = key then (k, nv) :: rest else (k, v) :: aupdate rest key nv

/-- Insert-or-replace; model of Go map assignment `m[key] = v`. -/
def ainsert {α : Type} (l : List (String × α)) (key : String) (v : α) :
    List (String × α) :=
  match alookup l key with
  | some _ => aupdate l key v
  | none => l ++ [(key, v)]

/-- Go `strings.HasPrefix` on character lists (second argument is the
candidate leading part). -/
def goHasPfx : List Char → List Char → Bool
  | _, [] => true
  | [], _ :: _ => false
  | c :: cs, p :: ps => c = p && goHasPfx cs ps

/-- Go `strings.Split` with separator `/`: splits into (possibly empty)
chunks between slashes. -/
def splitSlashChars : List Char → List (List Char)
  | [] => [[]]
  | c :: rest =>
    let r := splitSlashChars rest
    if c = '/' then [] :: r
    else
      match r with
      | [] => [[c]]
      | s :: tail => (c :: s) :: tail

/-! ### JSON values (model of `encoding/json` output) -/

/-- JSON value tree produced by the error writers. -/
inductive Json where
  | str (s : String)
  | num (n : Int)
  | boolv (b : Bool)
  | null
  | arr (xs : List Json)
  | obj (fields : List (String × Json))

/-- Top-level field lookup on a JSON object (`none` on non-objects). -/
def Json.field (j : Json) (k : String) : Option Json :=
  match j with
  | .obj fields => alookup fields k
  | _ => none

/-! ### `api-gateway/internal/errors` (source: `src/unnamed/part_005`)

`GatewayError` is the interface `{StatusCode, ErrorCode, Error, Details}`;
the single implementation `gatewayError` carries exactly these fields.
`Details` is `map[string]any`; every constructor used by the gateway pipeline
sets it to `nil`, and the model carries string-valued details, which is all
`ToJSON` ever renders in the modelled paths. -/

structure GatewayError where
  statusCode : Nat
  errorCode : String
  message : String
  details : List (String × String)
deriving DecidableEq, Repr

/-- `errors.NewError`. -/
def NewError (statusCode : Nat) (errorCode message : String) : GatewayError :=
  { statusCode := statusCode, errorCode := errorCode, message := message
    details := [] }

/-- `errors.NewUnauthorizedError`. -/
def NewUnauthorizedError (message : String) : GatewayError :=
  NewError 401 "UNAUTHORIZED" message

/-- `errors.NewNotFoundError`. -/
def NewNotFoundError (message : String) : GatewayError :=
  NewError 404 "NOT_FOUND" message

/-- `errors.NewInternalServerError`. -/
def NewInternalServerError (message : String) : GatewayError :=
  NewError 500 "INTERNAL_SERVER_ERROR" message

/-- `errors.NewBadGatewayError`. -/
def NewBadGatewayError (message : String) : GatewayError :=
  NewError 502 "BAD_GATEWAY" message

/-- `errors.ToJSON`: marshals `ErrorResponse{Error:{Code, Message, Details}}`
with `json:"details,omitempty"` dropping an empty details map. -/
def ToJSON (e : GatewayError) : Json :=
  Json.obj [("error", Json.obj
    ([("code", Json.str e.errorCode), ("message", Json.str e.message)] ++
      (if e.details.isEmpty then []
       else [("details", Json.obj (e.details.map (fun kv => (kv.1, Json.str kv.2))))])))]

/-- A Go `error` value flowing into the gateway error path: either already a
`GatewayError` (the dynamic type assertion in `IsGatewayError` succeeds) or a
plain error carrying only its message. -/
inductive GoError where
  | gw (e : GatewayError)
  | plain (msg : String)
deriving DecidableEq, Repr

/-- `errors.IsGatewayError`: the `err.(GatewayError)` type assertion. -/
def IsGatewayError : GoError → Bool
  | .gw _ => true
  | .plain _ => false

/-- `errors.WrapError`: a `GatewayError` passes through unchanged, anything
else is wrapped via `NewError(statusCode, errorCode, err.Error())`. -/
def WrapError (e : GoError) (statusCode : Nat) (errorCode : String) : GatewayError :=
  match e with
  | .gw g => g
  | .plain msg => NewError statusCode errorCode msg

/-- The written HTTP error response: status line, `Content-Type` header and
JSON body, as produced by `Gateway.handleError`. -/
structure HTTPResponse where
  status : Nat
  contentType : String
  body : Json

/-- The classification step inside `Gateway.handleError`
(`src/unnamed/part_007`): reuse the error when `IsGatewayError`, otherwise
wrap the message in `NewInternalServerError`. -/
def classifyGoError (err : GoError) : GatewayError :=
  match err with
  | .gw ge => ge
  | .plain msg => NewInternalServerError msg

/-- `Gateway.handleError` (response-writing part; the `slog` line is not
modelled): sets `Content-Type: application/json`, writes the error status and
the `ToJSON` body.  The response does not depend on the request. -/
def handleError (err : GoError) : HTTPResponse :=
  { status := (classifyGoError err).statusCode
    contentType := "application/json"
    body := ToJSON (classifyGoError err) }

/-! ### `api-gateway/internal/repository/session_repository.go`

The Redis client is modelled as a pure key-value store
`List (key × value × ttl)`; `Set` is insert-or-replace.  The RFC3339
rendering of the stored instant is modelled by the decimal rendering of the
unix time (injective, which is all the code relies on).  Driver/network
failures of `client.Set` are outside the modelled claims. -/

abbrev Store := List (String × String × Int)

/-- `redis.Client.Set` on the pure store model. -/
def redisSet (st : Store) (key value : String) (ttl : Int) : Store :=
  match st with
  | [] => [(key, value, ttl)]
  | (k, v, t) :: rest =>
    if k = key then (key, value, ttl) :: rest else (k, v, t) :: redisSet rest key value ttl

/-- `RedisSessionRepository.makeKey`. -/
def makeKey (keyPref userID : String) : String := keyPref ++ userID

/-- `RedisSessionRepository.SetRevokedTime`: a non-positive `expiration` is a
no-op returning `nil`; otherwise the marker is written under
`keyPrefix+userID` with the formatted instant and the TTL. -/
def SetRevokedTime (keyPref : String) (st : Store) (userID : String)
    (revokedTime expiration : Int) : Store × Option String :=
  if expiration ≤ 0 then (st, none)
  else (redisSet st (makeKey keyPref userID) (toString revokedTime) expiration, none)

/-! ### `api-gateway/internal/handler/admin_revoke.go` -/

/-- `AdminRevokeHandler.authenticate`: `req.Header.Get("X-API-Key")` yields
`""` when the header is absent; the submitted value is compared to the
configured key with Go `!=`.  Returns the error message, `none` on success. -/
def authenticate (handlerAPIKey headerValue : String) : Option String :=
  if headerValue = "" then some "X-API-Key header is missing"
  else if headerValue ≠ handlerAPIKey then some "invalid API key"
  else none

/-- Cost model of the byte comparison underlying Go string `==`/`!=`:
lengths are compared first (constant time); equal-length operands are then
compared bytewise with an early exit at the first mismatch.  The value counts
the number of byte comparisons performed. -/
def cmpCharsCost : List Char → List Char → Nat
  | [], _ => 0
  | _, [] => 0
  | a :: as, b :: bs => if a = b then 1 + cmpCharsCost as bs else 1

/-- Number of byte comparisons Go performs to decide `a != b`. -/
def goStringNeCost (a b : String) : Nat :=
  if a.length = b.length then cmpCharsCost a.toList b.toList else 0

/-! ### JWT claims (`jwt.MapClaims`)

`map[string]any` restricted to the dynamic types the middlewares inspect:
strings, numbers (`iat` arrives as `float64`/`int64`/`int`; all three are
converted through `time.Unix(int64(v), 0)`, so a single integer constructor
models the value after that conversion) and booleans; `other` stands for any
further dynamic type, for which every type switch in the sources falls
through to its failure branch. -/

inductive ClaimValue where
  | str (s : String)
  | num (n : Int)
  | boolv (b : Bool)
  | other
deriving DecidableEq, Repr

abbrev MapClaims := List (String × ClaimValue)

/-! ### `api-gateway/internal/middleware/auth/revoke.go` -/

/-- Fields of `RevokeMiddleware` (repository and logger are modelled
separately / not modelled). -/
structure RevokeMiddlewareCfg where
  userIDClaim : String
  issuedAtClaim : String
  failOpen : Bool
deriving DecidableEq, Repr

/-- `RevokeMiddleware.getUserID`: the claim must be present, a string, and
non-empty. -/
def getUserID (m : RevokeMiddlewareCfg) (claims : MapClaims) : Except String String :=
  match alookup claims m.userIDClaim with
  | none => .error ("claim " ++ m.userIDClaim ++ " not found")
  | some (.str s) =>
    if s = "" then .error ("claim " ++ m.userIDClaim ++ " is empty") else .ok s
  | some _ => .error ("claim " ++ m.userIDClaim ++ " is not a string")

/-- `RevokeMiddleware.getIssuedAt`: accepts `float64`/`int64`/`int` (the
single numeric constructor), failing on every other dynamic type. -/
def getIssuedAt (m : RevokeMiddlewareCfg) (claims : MapClaims) : Except String Int :=
  match alookup claims m.issuedAtClaim with
  | none => .error ("claim " ++ m.issuedAtClaim ++ " not found")
  | some (.num n) => .ok n
  | some _ => .error ("claim " ++ m.issuedAtClaim ++ " has invalid type")

/-- Result of `SessionRepository.GetRevokedTime`: an error, or a
`time.Time` whose zero value (no marker stored) is `none`. -/
inductive StoreResult where
  | ok (revokedTime : Option Int)
  | err (msg : String)
deriving DecidableEq, Repr

/-- `RevokeMiddleware.Process`.  `ctx` is the claims slot of the request
context (`none` when the JWT middleware did not run); `repo` is
`GetRevokedTime` keyed by user id.  Returns the (unchanged) context and the
error, `none` when the request passes. -/
def revokeProcess (m : RevokeMiddlewareCfg) (repo : String → StoreResult)
    (ctx : Option MapClaims) : Option MapClaims × Option GatewayError :=
  match ctx with
  | none => (ctx, none)
  | some claims =>
    match getUserID m claims with
    | .error _ => (ctx, some (NewError 401 "Unauthorized" "invalid token claims"))
    | .ok userID =>
      match getIssuedAt m claims with
      | .error _ => (ctx, some (NewError 401 "Unauthorized" "invalid token claims"))
      | .ok issuedAt =>
        match repo userID with
        | .err _ =>
          if m.failOpen then (ctx, none)
          else (ctx, some (NewError 503 "ServiceUnavailable" "session service unavailable"))
        | .ok none => (ctx, none)
        | .ok (some revokedTime) =>
          if issuedAt < revokedTime then
            (ctx, some (NewError 401 "Unauthorized" "token has been revoked"))
          else (ctx, none)

/-! ### `api-gateway/internal/middleware/auth/jwt.go`

The RSA cryptography is abstracted: a parsed token records its header
algorithm, its `kid` header, its claims, and a boolean oracle
`signatureValid` meaning "the RS signature verifies under the public key
configured for this token's `kid` and the registered temporal claims
(`exp`, `nbf`) pass".  The keyfunc's control flow — the
`token.Method.(*jwt.SigningMethodRSA)` type assertion, the `kid` extraction
and the key lookup — is translated directly. -/

/-- JWT signing algorithms as they appear in the `alg` header. -/
inductive Alg where
  | RS256 | RS384 | RS512 | HS256 | ES256 | PS256 | algNone
deriving DecidableEq, Repr

/-- The `token.Method.(*jwt.SigningMethodRSA)` type assertion: exactly the
`RS*` family (RS256, RS384, RS512) are instances of `*jwt.SigningMethodRSA`
in `golang-jwt/jwt/v5`. -/
def Alg.isRSAMethod : Alg → Bool
  | .RS256 | .RS384 | .RS512 => true
  | _ => false

/-- A structurally well-formed token reaching the keyfunc. -/
structure ParsedToken where
  alg : Alg
  kid : Option String
  claims : MapClaims
  signatureValid : Bool

/-- `JWTConfig` (the public-key map is used only through `kid` membership,
which is what `publicKeyKids` records). -/
structure JWTConfigM where
  publicKeyKids : List String
  skipValidation : Bool
  requiredClaims : List String

/-- Outcome of `JWTMiddleware.Process`: claims stored into the context, or a
failing `GatewayError`. -/
inductive JWTResult where
  | ok (claims : MapClaims)
  | fail (e : GatewayError)
deriving DecidableEq, Repr

/-- Whether `JWTMiddleware.Process` rejected the request with a 401. -/
def jwtResultIsUnauthorized : JWTResult → Bool
  | .ok _ => false
  | .fail e => e.statusCode == 401

/-- `jwt.Parse` with the middleware's keyfunc: a `nil`/malformed token, a
non-RSA signing method, a missing `kid`, an unknown `kid`, or a failed
verification each abort with an error message. -/
def jwtParse (cfg : JWTConfigM) (parsed : Option ParsedToken) :
    Except String ParsedToken :=
  match parsed with
  | none => .error "token is malformed"
  | some t =>
    if ¬ t.alg.isRSAMethod then .error "unexpected signing method"
    else match t.kid with
      | none => .error "kid header not found"
      | some kid =>
        if cfg.publicKeyKids.contains kid then
          if t.signatureValid then .ok t else .error "token signature is invalid"
        else .error ("public key not found for kid: " ++ kid)

/-- `JWTMiddleware.validateRequiredClaims`: first missing required claim
yields `Unauthorized("missing required claim: <name>")`. -/
def validateRequiredClaims (cfg : JWTConfigM) (claims : MapClaims) :
    Option GatewayError :=
  match cfg.requiredClaims.find? (fun rc => (alookup claims rc).isNone) with
  | some rc => some (NewUnauthorizedError ("missing required claim: " ++ rc))
  | none => none

/-- `JWTMiddleware.Process`.  `authHeader` is `req.Header.Get("Authorization")`
(`""` when absent); `parsed` is the structural parse of the stripped bearer
token. -/
def jwtProcess (cfg : JWTConfigM) (authHeader : String)
    (parsed : Option ParsedToken) : JWTResult :=
  if authHeader = "" then .fail (NewUnauthorizedError "missing authorization header")
  else if ¬ goHasPfx authHeader.toList "Bearer ".toList then
    .fail (NewUnauthorizedError "invalid authorization header format")
  else if cfg.skipValidation then .ok [("skip_validation", .boolv true)]
  else
    match jwtParse cfg parsed with
    | .error m => .fail (NewUnauthorizedError ("invalid token: " ++ m))
    | .ok t =>
      match validateRequiredClaims cfg t.claims with
      | some e => .fail e
      | none => .ok t.claims

/-! ### `go/rest` RBAC (`rest/internal/middleware/authz.go`,
`rest/internal/auth/claims.go`, `rest/internal/pkg/myerrors`) -/

def RoleAdmin : String := "admin"

def RoleUser : String := "user"

/-- `auth.Claims` (the fields the authorization middleware reads). -/
structure RestClaims where
  userID : String
  role : String
deriving DecidableEq, Repr

/-- `Claims.HasAnyRole`. -/
def HasAnyRole (c : RestClaims) (roles : List String) : Bool :=
  roles.any (fun role => c.role = role)

/-- The static `authorizeRoleMap` global. -/
def authorizeRoleMap : List (String × List String) :=
  [("v1GetHello", [RoleUser, RoleAdmin])]

/-- `myerrors` error values the authorization middleware produces
(the carried string is the user message). -/
inductive RestError where
  | unauthorized (userMessage : String)
  | forbidden (userMessage : String)
deriving DecidableEq, Repr

/-- Observable outcome of `AuthzMiddleware.Handle`: the returned error (if
any) and whether `next` was invoked (`next`'s response is opaque). -/
structure AuthzOutcome where
  error : Option RestError
  nextCalled : Bool
deriving DecidableEq, Repr

/-- `AuthzMiddleware.Handle`: role-map lookup first (default deny on a
missing mapping), then the claims-presence check, then the role check. -/
def authzHandle (operationID : String) (claims : Option RestClaims) : AuthzOutcome :=
  match alookup authorizeRoleMap operationID with
  | none =>
    { error := some (.forbidden "この操作を実行する権限がありません（ロールマッピング未定義）")
      nextCalled := false }
  | some allowedRoles =>
    match claims with
    | none =>
      { error := some (.unauthorized "認証情報が見つかりません"), nextCalled := false }
    | some c =>
      if HasAnyRole c allowedRoles then { error := none, nextCalled := true }
      else
        { error := some (.forbidden "この操作を実行する権限がありません")
          nextCalled := false }

/-! ### `api-gateway/internal/routing` (`trie.go`, `router.go`, `route.go`)

`node.children` is a Go map keyed by the child's segment string.  In the
model it is an association list whose order records insertion order; Go map
iteration order is unspecified, so the list order stands for one possible
iteration order of the `for range` loops in `findMatchingChild`.  The
`nodeType` and `paramName` fields of a node are functions of its segment
string and are therefore not stored separately. -/

/-- `config.MiddlewareConfig`: a type tag plus an option bag (the bag is not
inspected by the modelled code paths). -/
structure MiddlewareConfig where
  type : String
deriving DecidableEq, Repr

/-- `routing.Route` (the backend descriptor is collapsed to its URL string;
timeouts and header overrides are not inspected by the modelled paths). -/
structure Route where
  path : String
  methods : List String
  backendURL : String
  middleware : List MiddlewareConfig
  priority : Int
deriving DecidableEq, Repr

/-- `Route.HasMethod`: an empty method set accepts every method. -/
def HasMethod (r : Route) (method : String) : Bool :=
  r.methods.isEmpty || r.methods.contains method

/-- The trie node: children keyed by segment string, plus the terminal
route. -/
inductive Node where
  | mk (children : List (String × Node)) (route : Option Route)

def Node.children : Node → List (String × Node)
  | .mk c _ => c

def Node.route : Node → Option Route
  | .mk _ r => r

/-- `nodeType` of `trie.go`. -/
inductive NodeType where
  | staticNode | paramNode | wildcardNode
deriving DecidableEq, Repr

/-- The node-type classification performed in `newNode`: a leading `:` makes
a parameter node, `*`/`**` a wildcard node, anything else a static node. -/
def nodeTypeOf (segment : String) : NodeType :=
  if goHasPfx segment.toList [':'] then .paramNode
  else if segment = "*" ∨ segment = "**" then .wildcardNode
  else .staticNode

/-- `paramName`: the segment with the leading `:` stripped. -/
def paramNameOf (segment : String) : String := segment.drop 1

/-- `SplitPath`: trim leading/trailing `/`, then split on `/`
(`[]` for the empty trimmed path). -/
def splitPath (path : String) : List String :=
  let trimmed :=
    ((path.toList.dropWhile (fun c => c = '/')).reverse.dropWhile
      (fun c => c = '/')).reverse
  if trimmed = [] then [] else (splitSlashChars trimmed).map String.mk

/-- `node.findMatchingChild`: static lookup, then the first parameter child
the map iteration yields, then the first wildcard child.  Returns the child
together with its key segment. -/
def findMatchingChild (n : Node) (segment : String) : Option (String × Node) :=
  match alookup n.children segment with
  | some child => some (segment, child)
  | none =>
    match n.children.find? (fun kc => nodeTypeOf kc.1 = NodeType.paramNode) with
    | some kc => some kc
    | none => n.children.find? (fun kc => nodeTypeOf kc.1 = NodeType.wildcardNode)

/-- `Router.findRoute`: walk the trie segment by segment, recording the
matched segment under the parameter name whenever the chosen child is a
parameter node (`params[name] = segment` is Go map assignment, i.e.
insert-or-replace). -/
def findRoute : Node → List String → List (String × String) →
    Option (Route × List (String × String))
  | n, [], params => n.route.map (fun r => (r, params))
  | n, segment :: rest, params =>
    match findMatchingChild n segment with
    | none => none
    | some (key, child) =>
      let params' :=
        if nodeTypeOf key = NodeType.paramNode then
          ainsert params (paramNameOf key) segment
        else params
      findRoute child rest params'

/-- `routing.MatchResult`. -/
structure MatchResult where
  route : Route
  params : List (String × String)
deriving DecidableEq, Repr

/-- `Router.Match`: split the path, walk the trie, then enforce the method
set of the matched route. -/
def routerMatch (root : Node) (method path : String) :
    Except GatewayError MatchResult :=
  match findRoute root (splitPath path) [] with
  | none => .error (NewNotFoundError ("no route found for path: " ++ path))
  | some (r, params) =>
    if HasMethod r method then .ok { route := r, params := params }
    else .error (NewError 405 "METHOD_NOT_ALLOWED" ("method " ++ method ++ " not allowed"))

/-- The walk of `Router.AddRoute`: descend along the segments, creating
missing children (`addChild` appends a fresh node under the segment key),
and attach the route at the terminal node; fails (`none`) when a route
already terminates there. -/
def insertPath : Node → List String → Route → Option Node
  | .mk c r0, [], route =>
    match r0 with
    | some _ => none
    | none => some (.mk c (some route))
  | .mk c r0, segment :: rest, route =>
    match alookup c segment with
    | some child =>
      (insertPath child rest route).map (fun ch => .mk (aupdate c segment ch) r0)
    | none =>
      (insertPath (.mk [] none) rest route).map (fun ch => .mk (c ++ [(segment, ch)]) r0)

/-- The chain of fresh nodes `addChild` creates when inserting a path into
an empty subtrie (the terminal node carries the route). -/
def freshPath : List String → Route → Node
  | [], r => .mk [] (some r)
  | s :: rest, r => .mk [(s, freshPath rest r)] none

/-- `Router.AddRoute`: rejects an empty path, then inserts along
`SplitPath(route.Path)`. -/
def addRoute (root : Node) (r : Route) : Option Node :=
  if r.path = "" then none else insertPath root (splitPath r.path) r

/-- Folding `AddRoute` over a route list from a given trie. -/
def foldAdd (t : Node) (routes : List Route) : Option Node :=
  routes.foldlM (fun t r => addRoute t r) t

/-- Building a router by `AddRoute`-ing a list of routes into `NewRouter()`
(first failure aborts, as `LoadFromConfig` does). -/
def buildRouter (routes : List Route) : Option Node :=
  foldAdd (Node.mk [] none) routes

/-! ### `api-gateway/internal/middleware/middleware.go` and
`Gateway.ServeHTTP` (`src/unnamed/part_007`)

A middleware stage is `Process : (ctx, req) → (ctx, error)`.  The request
context is reduced to its claims slot (`Ctx`), the only part the modelled
stages read or write.  `chainExecute` is the literal translation of
`Chain.Execute`; `chainExecuteT` is the same control flow instrumented with
the number of `Process` invocations, used to express "no later stage runs". -/

/-- HTTP request surface the modelled code inspects. -/
structure Request where
  method : String
  path : String
  headers : List (String × String)

abbrev Ctx := Option MapClaims

abbrev Stage := Ctx → Request → Ctx × Option GatewayError

/-- `Chain.Execute`: run stages in order, short-circuiting on the first
error. -/
def chainExecute : List Stage → Ctx → Request → Ctx × Option GatewayError
  | [], ctx, _ => (ctx, none)
  | s :: rest, ctx, req =>
    match s ctx req with
    | (ctx', none) => chainExecute rest ctx' req
    | (ctx', some e) => (ctx', some e)

/-- Result of the instrumented chain execution. -/
structure ChainTrace where
  ctx : Ctx
  err : Option GatewayError
  invoked : Nat

/-- `Chain.Execute` instrumented with the number of `Process` calls. -/
def chainExecuteT : List Stage → Ctx → Request → ChainTrace
  | [], ctx, _ => { ctx := ctx, err := none, invoked := 0 }
  | s :: rest, ctx, req =>
    match s ctx req with
    | (ctx', none) =>
      let t := chainExecuteT rest ctx' req
      { t with invoked := t.invoked + 1 }
    | (ctx', some e) => { ctx := ctx', err := some e, invoked := 1 }

/-- `Gateway.buildMiddlewareChain`: create one stage per descriptor via the
factory, aborting on the first factory error. -/
def buildMiddlewareChain (create : MiddlewareConfig → Except String Stage)
    (cfgs : List MiddlewareConfig) : Except String (List Stage) :=
  cfgs.mapM create

/-- What the gateway wrote to the client. -/
inductive GatewayResponse where
  | written (status : Nat) (contentType : Option String) (body : Option Json)
  | proxied

/-- Observable outcome of one `Gateway.ServeHTTP` run.  `routerConsulted`,
`stagesInvoked` and `transportCalled` are instrumentation recording which
collaborators ran. -/
structure GatewayOutcome where
  response : GatewayResponse
  routerConsulted : Bool
  stagesInvoked : Nat
  transportCalled : Bool

/-- `handleError` as invoked from `ServeHTTP` (wraps the written
`HTTPResponse` into a `GatewayResponse`). -/
def errorResponse (err : GoError) : GatewayResponse :=
  .written (handleError err).status (some (handleError err).contentType)
    (some (handleError err).body)

/-- `Gateway.ServeHTTP`: OPTIONS short-circuit, route match, per-route chain
build and execution, then transport.  `create` is the middleware factory;
`transportErr` is the outcome of `transporter.Transport` when it is reached
(`none` = the backend response was streamed). -/
def serveHTTP (root : Node) (create : MiddlewareConfig → Except String Stage)
    (transportErr : Option GoError) (ctx0 : Ctx) (req : Request) : GatewayOutcome :=
  if req.method = "OPTIONS" then
    { response := .written 204 none none
      routerConsulted := false, stagesInvoked := 0, transportCalled := false }
  else
    match routerMatch root req.method req.path with
    | .error e =>
      { response := errorResponse (.gw (WrapError (.gw e) 404 "ROUTING_ERROR"))
        routerConsulted := true, stagesInvoked := 0, transportCalled := false }
    | .ok mr =>
      let transportStep : Nat → GatewayOutcome := fun invoked =>
        match transportErr with
        | some e =>
          { response := errorResponse (.gw (WrapError e 502 "TRANSPORT_ERROR"))
            routerConsulted := true, stagesInvoked := invoked, transportCalled := true }
        | none =>
          { response := .proxied
            routerConsulted := true, stagesInvoked := invoked, transportCalled := true }
      if mr.route.middleware.isEmpty then transportStep 0
      else
        match buildMiddlewareChain create mr.route.middleware with
        | .error m =>
          { response := errorResponse (.gw (WrapError (.plain m) 500 "MIDDLEWARE_SETUP_ERROR"))
            routerConsulted := true, stagesInvoked := 0, transportCalled := false }
        | .ok stages =>
          let t := chainExecuteT stages ctx0 req
          match t.err with
          | some e =>
            { response := errorResponse (.gw (WrapError (.gw e) 401 "MIDDLEWARE_ERROR"))
              routerConsulted := true, stagesInvoked := t.invoked, transportCalled := false }
          | none => transportStep t.invoked

/-! ### Trie invariants and order-insensitivity infrastructure

`NWF` is the documented trie invariant: per node, children keys are
distinct, at most one parameter child and at most one wildcard child.
`NEquiv` relates tries that hold the same children (as maps) with the same
terminal routes, differing only in the unspecified enumeration order of the
children map; `OEquiv` lifts it to `Option`. -/

def keysOf {α : Type} (c : List (String × α)) : List String := c.map Prod.fst

/-- Trie invariant (§3 of the spec): distinct children keys, at most one
parameter child, at most one wildcard child, recursively. -/
inductive NWF : Node → Prop where
  | mk (c : List (String × Node)) (r : Option Route)
      (hnd : (keysOf c).Nodup)
      (hp : ((keysOf c).filter (fun k => nodeTypeOf k = NodeType.paramNode)).length ≤ 1)
      (hw : ((keysOf c).filter (fun k => nodeTypeOf k = NodeType.wildcardNode)).length ≤ 1)
      (hch : ∀ k n, alookup c k = some n → NWF n) : NWF (.mk c r)

/-- Fuel-bounded boolean check for `NWF` (decidable on concrete tries). -/
def nwfB : Nat → Node → Bool
  | 0, _ => false
  | fuel + 1, .mk c _ =>
    decide ((keysOf c).Nodup) &&
    decide (((keysOf c).filter (fun k => nodeTypeOf k = NodeType.paramNode)).length ≤ 1) &&
    decide (((keysOf c).filter (fun k => nodeTypeOf k = NodeType.wildcardNode)).length ≤ 1) &&
    c.all (fun kc => nwfB fuel kc.2)

/-- Same map content and routes, children enumerated in possibly different
orders. -/
inductive NEquiv : Node → Node → Prop where
  | refl (n : Node) : NEquiv n n
  | congr (c1 c2 : List (String × Node)) (r : Option Route)
      (hsome : ∀ k, (alookup c1 k).isSome = (alookup c2 k).isSome)
      (hrel : ∀ k n1 n2, alookup c1 k = some n1 → alookup c2 k = some n2 →
        NEquiv n1 n2) :
      NEquiv (.mk c1 r) (.mk c2 r)

/-- `NEquiv` lifted to the `Option` results of fallible insertion. -/
def OEquiv : Option Node → Option Node → Prop
  | none, none => True
  | some n1, some n2 => NEquiv n1 n2
  | _, _ => False

/-- Discriminator for `Except` results. -/
def exceptIsOk {ε α : Type} : Except ε α → Bool
  | .ok _ => true
  | .error _ => false

/-! ### Concrete fixtures used by witnesses and counterexamples -/

def backendDemo : String := "http://backend.internal:8080"

/-- A route whose template ends in a wildcard segment. -/
def wildcardRoute : Route :=
  { path := "/api/*", methods := [], backendURL := backendDemo
    middleware := [], priority := 0 }

/-- The trie holding only `wildcardRoute`. -/
def wildcardTrie : Node :=
  (buildRouter [wildcardRoute]).getD (Node.mk [] none)

/-- Route `/a/:x` (terminal at the parameter). -/
def routeParamX : Route :=
  { path := "/a/:x", methods := [], backendURL := backendDemo
    middleware := [], priority := 0 }

/-- Route `/a/:y/b`: a second parameter child under the same node. -/
def routeParamYB : Route :=
  { path := "/a/:y/b", methods := [], backendURL := backendDemo
    middleware := [], priority := 0 }

/-- Trie from inserting `/a/:x` before `/a/:y/b`. -/
def trieParamOrder1 : Node :=
  (buildRouter [routeParamX, routeParamYB]).getD (Node.mk [] none)

/-- Trie from inserting `/a/:y/b` before `/a/:x`. -/
def trieParamOrder2 : Node :=
  (buildRouter [routeParamYB, routeParamX]).getD (Node.mk [] none)

def routeStaticA : Route :=
  { path := "/a", methods := ["GET"], backendURL := backendDemo
    middleware := [], priority := 0 }

def routeStaticB : Route :=
  { path := "/b", methods := ["GET"], backendURL := backendDemo
    middleware := [], priority := 1 }

/-- Trie from inserting `/a` before `/b`. -/
def trieAB1 : Node :=
  (buildRouter [routeStaticA, routeStaticB]).getD (Node.mk [] none)

/-- Trie from inserting `/b` before `/a`. -/
def trieAB2 : Node :=
  (buildRouter [routeStaticB, routeStaticA]).getD (Node.mk [] none)

/-- A stage that passes the context through unchanged. -/
def stagePass : Stage := fun ctx _ => (ctx, none)

/-- A stage that fails with a 401. -/
def stageFail : Stage := fun ctx _ => (ctx, some (NewUnauthorizedError "stage failed"))

/-- Demo middleware factory: descriptor type `fail` builds `stageFail`,
everything else builds `stagePass`. -/
def createDemo : MiddlewareConfig → Except String Stage := fun cfg =>
  if cfg.type = "fail" then .ok stageFail else .ok stagePass

/-- A route carrying a pass/fail/pass middleware chain. -/
def routeChained : Route :=
  { path := "/c", methods := [], backendURL := backendDemo
    middleware := [{ type := "pass" }, { type := "fail" }, { type := "pass" }]
    priority := 0 }

def chainedTrie : Node :=
  (buildRouter [routeChained]).getD (Node.mk [] none)

def reqChained : Request :=
  { method := "GET", path := "/c", headers := [] }

def reqOptions : Request :=
  { method := "OPTIONS", path := "/c", headers := [] }

/-! ## Theorems -/

/-- C9: for every store state, user id, revoked time and TTL ≤ 0,
`SetRevokedTime` returns success (`nil` error) without performing any store
write; the store is unchanged. -/
theorem setRevokedTime_nonpositive_ttl_is_noop
    (keyPref : String) (st : Store) (userID : String)
    (revokedTime expiration : Int) (h : expiration ≤ 0) :
    SetRevokedTime keyPref st userID revokedTime expiration = (st, none) := by
  unfold SetRevokedTime
  simp [h]

/-- Witness for C9: `SetRevokedTime` with TTL `0` over a non-empty store. -/
theorem setRevokedTime_nonpositive_ttl_is_noop_witness :
    SetRevokedTime "revoke:" [("revoke:u0", "999", 5)] "u1" 1000 0 =
      ([("revoke:u0", "999", 5)], none) :=
  setRevokedTime_nonpositive_ttl_is_noop "revoke:" [("revoke:u0", "999", 5)]
    "u1" 1000 0 (by decide)

/-- C4 (code bug evidence): the `X-API-Key` check compares with Go `!=`,
whose byte-comparison cost depends on the length of the matching prefix of
the submitted key: two same-length rejected keys produce the identical
observable result but 1 vs 8 byte comparisons against the secret
`"secret01"`, so the check is not constant-time. -/
theorem adminRevoke_authenticate_compare_cost_depends_on_prefix :
    authenticate "secret01" "aecret01" = some "invalid API key" ∧
    authenticate "secret01" "secret0X" = some "invalid API key" ∧
    goStringNeCost "secret01" "aecret01" = 1 ∧
    goStringNeCost "secret01" "secret0X" = 8 := by
  refine ⟨rfl, rfl, ?_, ?_⟩ <;> decide

/-- C8 counterexample: on an unmapped operation id the middleware denies
with the Japanese user message
「この操作を実行する権限がありません（ロールマッピング未定義）」, not with the
detail string `"no role mapping — default deny"` stated by the claim. -/
theorem authz_missing_mapping_message_counterexample :
    authzHandle "v1DeleteUsers" (some { userID := "u1", role := "admin" }) =
      { error := some (.forbidden "この操作を実行する権限がありません（ロールマッピング未定義）")
        nextCalled := false } ∧
    "この操作を実行する権限がありません（ロールマッピング未定義）" ≠
      "no role mapping — default deny" := by
  refine ⟨rfl, ?_⟩
  decide

/-- C8 (amended): for every operation id absent from the RBAC role map the
middleware denies with `Forbidden` carrying the user message
「この操作を実行する権限がありません（ロールマッピング未定義）」 ("you are not
authorized to perform this operation (role mapping undefined)") regardless
of the claims present, and never invokes the next handler. -/
theorem authz_missing_mapping_default_deny
    (operationID : String) (claims : Option RestClaims)
    (h : alookup authorizeRoleMap operationID = none) :
    authzHandle operationID claims =
      { error := some (.forbidden "この操作を実行する権限がありません（ロールマッピング未定義）")
        nextCalled := false } := by
  unfold authzHandle
  rw [h]

/-- Witness for C8: unmapped operation id `"v1PostItems"` with admin
claims. -/
theorem authz_missing_mapping_default_deny_witness :
    authzHandle "v1PostItems" (some { userID := "u1", role := "admin" }) =
      { error := some (.forbidden "この操作を実行する権限がありません（ロールマッピング未定義）")
        nextCalled := false } :=
  authz_missing_mapping_default_deny "v1PostItems"
    (some { userID := "u1", role := "admin" }) (by decide)

/-- C1: with claims in context carrying user id `u` and issued-at `t0`, and
the store answering successfully, `RevokeMiddleware.Process` passes exactly
when no marker is stored (zero revoked time) or `t0` is at least the stored
revoked time, and fails `Unauthorized("token has been revoked")` exactly
when `t0` is strictly before the stored revoked time. -/
theorem revoke_decision
    (m : RevokeMiddlewareCfg) (repo : String → StoreResult) (claims : MapClaims)
    (u : String) (t0 : Int) (rt : Option Int)
    (hu : getUserID m claims = .ok u)
    (hi : getIssuedAt m claims = .ok t0)
    (hr : repo u = .ok rt) :
    ((revokeProcess m repo (some claims)).2 = none ↔
      (rt = none ∨ ∃ t1, rt = some t1 ∧ t1 ≤ t0)) ∧
    ((revokeProcess m repo (some claims)).2 =
        some (NewError 401 "Unauthorized" "token has been revoked") ↔
      (∃ t1, rt = some t1 ∧ t0 < t1)) := by
  cases rt with
  | none => simp [revokeProcess, hu, hi, hr]
  | some t1 =>
    by_cases hlt : t0 < t1
    · simp [revokeProcess, hu, hi, hr, hlt]
    · simp [revokeProcess, hu, hi, hr, hlt]
      omega

/-- Witness for C1: `iat = 1000`, stored revoked time `2000` — the request
is rejected with `"token has been revoked"`. -/
theorem revoke_decision_witness :
    (revokeProcess { userIDClaim := "sub", issuedAtClaim := "iat", failOpen := false }
        (fun _ => .ok (some 2000))
        (some [("sub", .str "u1"), ("iat", .num 1000)])).2 =
      some (NewError 401 "Unauthorized" "token has been revoked") :=
  ((revoke_decision { userIDClaim := "sub", issuedAtClaim := "iat", failOpen := false }
      (fun _ => .ok (some 2000)) [("sub", .str "u1"), ("iat", .num 1000)]
      "u1" 1000 (some 2000) rfl rfl rfl).2).mpr ⟨2000, rfl, by decide⟩

/-- C3 counterexample: a token signed with RS384 (an algorithm other than
RS256) with a known `kid` and valid signature is accepted by
`JWTMiddleware.Process` — the keyfunc only checks membership in the
`*jwt.SigningMethodRSA` family, not RS256 specifically. -/
theorem jwt_rs384_accepted_counterexample :
    jwtProcess { publicKeyKids := ["key1"], skipValidation := false, requiredClaims := [] }
        "Bearer tok"
        (some { alg := .RS384, kid := some "key1"
                claims := [("sub", .str "u1")], signatureValid := true }) =
      .ok [("sub", .str "u1")] ∧
    Alg.RS384 ≠ Alg.RS256 := by
  refine ⟨rfl, ?_⟩
  decide

/-- C3 (amended): with skip-validation off, every token whose signing
algorithm is outside the RSA family (`RS256`/`RS384`/`RS512`, the
`*jwt.SigningMethodRSA` instances) is rejected with a 401; RSA-family
algorithms other than RS256 pass the algorithm check. -/
theorem jwt_non_rsa_method_rejected
    (cfg : JWTConfigM) (authHeader : String) (t : ParsedToken)
    (hskip : cfg.skipValidation = false)
    (halg : t.alg.isRSAMethod = false) :
    jwtResultIsUnauthorized (jwtProcess cfg authHeader (some t)) = true := by
  unfold jwtProcess
  by_cases h1 : authHeader = ""
  · simp [h1, jwtResultIsUnauthorized, NewUnauthorizedError, NewError]
  · by_cases h2 : goHasPfx authHeader.data ['B', 'e', 'a', 'r', 'e', 'r', ' '] = true
    · simp [h1, h2, hskip, jwtParse, halg, jwtResultIsUnauthorized,
        NewUnauthorizedError, NewError]
    · simp only [Bool.not_eq_true] at h2
      simp [h1, h2, jwtResultIsUnauthorized, NewUnauthorizedError, NewError]

/-- Witness for C3: an HS256-signed token is rejected with 401. -/
theorem jwt_non_rsa_method_rejected_witness :
    ({ publicKeyKids := ["key1"], skipValidation := false,
       requiredClaims := [] } : JWTConfigM).skipValidation = false ∧
    ({ alg := .HS256, kid := some "key1", claims := []
       signatureValid := true } : ParsedToken).alg.isRSAMethod = false ∧
    jwtResultIsUnauthorized (jwtProcess
      { publicKeyKids := ["key1"], skipValidation := false, requiredClaims := [] }
      "Bearer tok"
      (some { alg := .HS256, kid := some "key1", claims := []
              signatureValid := true })) = true :=
  ⟨rfl, rfl, jwt_non_rsa_method_rejected
    { publicKeyKids := ["key1"], skipValidation := false, requiredClaims := [] }
    "Bearer tok"
    { alg := .HS256, kid := some "key1", claims := [], signatureValid := true }
    rfl rfl⟩

/-- C2 counterexample: the gateway error writer sets
`Content-Type: application/json`, not `application/problem+json`, and its
body has neither a top-level `type` nor an `instance` member — it is not the
RFC 9457 shape the claim states. -/
theorem gateway_error_writer_not_problem_json :
    (handleError (.gw (NewUnauthorizedError "token has been revoked"))).contentType ≠
      "application/problem+json" ∧
    ((handleError (.gw (NewUnauthorizedError "token has been revoked"))).body.field
      "type").isSome = false ∧
    ((handleError (.gw (NewUnauthorizedError "token has been revoked"))).body.field
      "instance").isSome = false := by
  refine ⟨?_, rfl, rfl⟩
  decide

/-- C2 (amended): for every error that escapes the gateway pipeline, the
gateway's error writer emits `Content-Type: application/json` with the
classified error's status and the body shape
`{"error": {"code", "message", optional "details"}}`. -/
theorem gateway_error_writer_shape (err : GoError) :
    (handleError err).contentType = "application/json" ∧
    (handleError err).status = (classifyGoError err).statusCode ∧
    ∃ fields, (handleError err).body = Json.obj [("error", Json.obj fields)] ∧
      alookup fields "code" = some (.str (classifyGoError err).errorCode) ∧
      alookup fields "message" = some (.str (classifyGoError err).message) := by
  refine ⟨rfl, rfl, ?_⟩
  refine ⟨_, rfl, ?_, ?_⟩ <;> simp [alookup]

/-- C10: every OPTIONS request is answered 204 with an empty body before the
router is consulted; no middleware stage runs and the transport is never
called. -/
theorem serveHTTP_options_short_circuits
    (root : Node) (create : MiddlewareConfig → Except String Stage)
    (transportErr : Option GoError) (ctx0 : Ctx) (req : Request)
    (h : req.method = "OPTIONS") :
    serveHTTP root create transportErr ctx0 req =
      { response := .written 204 none none
        routerConsulted := false, stagesInvoked := 0, transportCalled := false } := by
  unfold serveHTTP
  simp [h]

/-- Witness for C10: OPTIONS request against the demo gateway. -/
theorem serveHTTP_options_short_circuits_witness :
    reqOptions.method = "OPTIONS" ∧
    serveHTTP chainedTrie createDemo none none reqOptions =
      { response := .written 204 none none
        routerConsulted := false, stagesInvoked := 0, transportCalled := false } :=
  ⟨rfl, serveHTTP_options_short_circuits chainedTrie createDemo none none reqOptions rfl⟩

/-- Helper: a prefix of the chain that succeeds contributes its full length
of invocations and hands its final context to the rest of the chain. -/
theorem chainT_append_ok
    (pre rest : List Stage) (ctx ctx1 : Ctx) (req : Request)
    (h : chainExecute pre ctx req = (ctx1, none)) :
    chainExecuteT (pre ++ rest) ctx req =
      { ctx := (chainExecuteT rest ctx1 req).ctx
        err := (chainExecuteT rest ctx1 req).err
        invoked := pre.length + (chainExecuteT rest ctx1 req).invoked } := by
  induction pre generalizing ctx with
  | nil =>
    simp only [chainExecute] at h
    injection h with h1 h2
    subst h1
    simp
  | cons s pre ih =>
    simp only [chainExecute] at h
    simp only [List.cons_append, chainExecuteT]
    cases hs : s ctx req with
    | mk ctx' eo =>
      rw [hs] at h
      cases eo with
      | some e => simp at h
      | none =>
        have hrec := ih ctx' h
        simp [hrec]
        omega

/-- C7: a failing stage terminates `Chain.Execute` — the stages after it are
never invoked (the invocation count stops at the failing stage, independent
of what follows) — and for every request whose route carries that chain the
gateway never calls the transport. -/
theorem chain_error_stops_pipeline
    (pre post : List Stage) (s : Stage) (ctx0 ctx1 ctx2 : Ctx) (req : Request)
    (e : GatewayError)
    (hpre : chainExecute pre ctx0 req = (ctx1, none))
    (hs : s ctx1 req = (ctx2, some e)) :
    chainExecuteT (pre ++ s :: post) ctx0 req =
      { ctx := ctx2, err := some e, invoked := pre.length + 1 } ∧
    ∀ (root : Node) (create : MiddlewareConfig → Except String Stage)
      (transportErr : Option GoError) (mr : MatchResult),
      req.method ≠ "OPTIONS" →
      routerMatch root req.method req.path = .ok mr →
      buildMiddlewareChain create mr.route.middleware = .ok (pre ++ s :: post) →
      (serveHTTP root create transportErr ctx0 req).transportCalled = false ∧
      (serveHTTP root create transportErr ctx0 req).stagesInvoked = pre.length + 1 := by
  have htrace : chainExecuteT (pre ++ s :: post) ctx0 req =
      { ctx := ctx2, err := some e, invoked := pre.length + 1 } := by
    rw [chainT_append_ok pre (s :: post) ctx0 ctx1 req hpre]
    simp [chainExecuteT, hs]
  refine ⟨htrace, ?_⟩
  intro root create transportErr mr hopt hmatch hbuild
  have hfe : mr.route.middleware.isEmpty = false := by
    cases hmw : mr.route.middleware with
    | nil =>
      rw [hmw] at hbuild
      have hni : ([] : List Stage) = pre ++ s :: post := by injection hbuild
      simp at hni
    | cons a l => rfl
  unfold serveHTTP
  simp [hopt, hmatch, hfe, hbuild, htrace]

/-- Witness for C7: chain pass/fail/pass — the trailing stage never runs
(2 invocations) and the transport is not called. -/
theorem chain_error_stops_pipeline_witness :
    chainExecuteT ([stagePass] ++ stageFail :: [stagePass]) none reqChained =
      { ctx := none, err := some (NewUnauthorizedError "stage failed"), invoked := 2 } ∧
    (serveHTTP chainedTrie createDemo none none reqChained).transportCalled = false ∧
    (serveHTTP chainedTrie createDemo none none reqChained).stagesInvoked = 2 := by
  have h := chain_error_stops_pipeline [stagePass] [stagePass] stageFail
    none none none reqChained (NewUnauthorizedError "stage failed") rfl rfl
  have h2 := h.2 chainedTrie createDemo none { route := routeChained, params := [] }
    (by decide) rfl rfl
  exact ⟨h.1, h2.1, h2.2⟩

/-- C5 counterexample: against the trie holding the wildcard route
`/api/*`, `Match` fails on `/api/x/y` (two segments remain at the wildcard)
although it succeeds on `/api/x` — the wildcard does not match the
remainder of the path. -/
theorem wildcard_remainder_counterexample :
    exceptIsOk (routerMatch wildcardTrie "GET" "/api/x/y") = false ∧
    exceptIsOk (routerMatch wildcardTrie "GET" "/api/x") = true :=
  ⟨rfl, rfl⟩

/-- C5 (amended): a wildcard child matches exactly one path segment and
descent continues past it like any other node; under a childless wildcard
node, `findRoute` succeeds only when exactly one segment remained at the
wildcard, and fails for two or more remaining segments. -/
theorem wildcard_consumes_exactly_one_segment
    (c : List (String × Node)) (r0 : Option Route) (segment key : String)
    (w : Node) (rest : List String) (params : List (String × String))
    (hfind : findMatchingChild (.mk c r0) segment = some (key, w))
    (hwild : nodeTypeOf key = NodeType.wildcardNode)
    (hleaf : w.children = []) :
    findRoute (.mk c r0) (segment :: rest) params =
      match rest with
      | [] => w.route.map (fun r => (r, params))
      | _ :: _ => none := by
  unfold findRoute
  rw [hfind]
  simp only [hwild]
  cases rest with
  | nil => simp [findRoute]
  | cons s t => simp [findRoute, findMatchingChild, hleaf, alookup]

/-- Witness for C5: the wildcard node of `/api/*`; one remaining segment
matches, two do not. -/
theorem wildcard_consumes_exactly_one_segment_witness :
    findRoute (Node.mk [("*", Node.mk [] (some wildcardRoute))] none) ["x", "y"] [] =
      none ∧
    findRoute (Node.mk [("*", Node.mk [] (some wildcardRoute))] none) ["x"] [] =
      some (wildcardRoute, []) :=
  ⟨wildcard_consumes_exactly_one_segment [("*", Node.mk [] (some wildcardRoute))]
     none "x" "*" (Node.mk [] (some wildcardRoute)) ["y"] [] rfl rfl rfl,
   wildcard_consumes_exactly_one_segment [("*", Node.mk [] (some wildcardRoute))]
     none "x" "*" (Node.mk [] (some wildcardRoute)) [] [] rfl rfl rfl⟩

/-! ### Association-list and search lemmas shared by the routing proofs -/

theorem alookup_isSome_iff {α : Type} (c : List (String × α)) (k : String) :
    (alookup c k).isSome = true ↔ k ∈ keysOf c := by
  induction c with
  | nil => simp [alookup, keysOf]
  | cons kv rest ih =>
    obtain ⟨k', v⟩ := kv
    by_cases h : k' = k
    · subst h
      simp [alookup, keysOf]
    · simp [alookup, keysOf, h, ih, Ne.symm h]

theorem alookup_eq_some_mem {α : Type} {c : List (String × α)} {k : String}
    {v : α} (h : alookup c k = some v) : (k, v) ∈ c := by
  induction c with
  | nil => simp [alookup] at h
  | cons kv rest ih =>
    obtain ⟨k', v'⟩ := kv
    by_cases hk : k' = k
    · subst hk
      simp [alookup] at h
      simp [h]
    · simp [alookup, hk] at h
      simp [ih h]

theorem alookup_append_some {α : Type} {c : List (String × α)}
    (d : List (String × α)) {k : String} {v : α} (h : alookup c k = some v) :
    alookup (c ++ d) k = some v := by
  induction c with
  | nil => simp [alookup] at h
  | cons kv rest ih =>
    obtain ⟨k', v'⟩ := kv
    by_cases hk : k' = k
    · subst hk
      simp [alookup] at h ⊢
      exact h
    · simp [alookup, hk] at h ⊢
      exact ih h

theorem alookup_append_none {α : Type} {c : List (String × α)}
    (d : List (String × α)) {k : String} (h : alookup c k = none) :
    alookup (c ++ d) k = alookup d k := by
  induction c with
  | nil => simp [alookup]
  | cons kv rest ih =>
    obtain ⟨k', v'⟩ := kv
    by_cases hk : k' = k
    · subst hk
      simp [alookup] at h
    · simp [alookup, hk] at h ⊢
      exact ih h

theorem alookup_aupdate_self {α : Type} {c : List (String × α)} {k : String}
    (v : α) (h : (alookup c k).isSome = true) :
    alookup (aupdate c k v) k = some v := by
  induction c with
  | nil => simp [alookup] at h
  | cons kv rest ih =>
    obtain ⟨k', v'⟩ := kv
    by_cases hk : k' = k
    · subst hk
      simp [alookup, aupdate]
    · simp [alookup, aupdate, hk] at h ⊢
      exact ih h

theorem alookup_aupdate_ne {α : Type} (c : List (String × α)) (k k' : String)
    (v : α) (hne : k' ≠ k) : alookup (aupdate c k v) k' = alookup c k' := by
  induction c with
  | nil => simp [aupdate]
  | cons kv rest ih =>
    obtain ⟨k0, w⟩ := kv
    by_cases hk : k0 = k
    · subst hk
      have : ¬ k0 = k' := fun he => hne (he ▸ rfl)
      simp [alookup, aupdate, this]
    · by_cases hk' : k0 = k'
      · subst hk'
        simp [alookup, aupdate, hk]
      · simp [alookup, aupdate, hk, hk', ih]

theorem aupdate_aupdate {α : Type} (c : List (String × α)) (k : String)
    (a b : α) : aupdate (aupdate c k a) k b = aupdate c k b := by
  induction c with
  | nil => simp [aupdate]
  | cons kv rest ih =>
    obtain ⟨k0, w⟩ := kv
    by_cases hk : k0 = k
    · subst hk
      simp [aupdate]
    · simp [aupdate, hk, ih]

theorem keys_mem_transfer {α : Type} {c1 c2 : List (String × α)}
    (hsome : ∀ k, (alookup c1 k).isSome = (alookup c2 k).isSome) (k : String) :
    k ∈ keysOf c1 ↔ k ∈ keysOf c2 := by
  rw [← alookup_isSome_iff, ← alookup_isSome_iff, hsome]

theorem find_keyPred_none {α : Type} (p : String → Bool)
    (c : List (String × α)) (h : ∀ k ∈ keysOf c, p k = false) :
    c.find? (fun kc => p kc.1) = none := by
  apply List.find?_eq_none.mpr
  intro kv hmem
  have hk : kv.1 ∈ keysOf c := List.mem_map_of_mem Prod.fst hmem
  simp [h kv.1 hk]

theorem find_keyPred_unique {α : Type} (p : String → Bool)
    (c : List (String × α)) (k0 : String) (hk0 : p k0 = true)
    (huniq : ∀ k ∈ keysOf c, p k = true → k = k0) :
    c.find? (fun kc => p kc.1) = (alookup c k0).map (fun v => (k0, v)) := by
  induction c with
  | nil => simp [alookup]
  | cons kv rest ih =>
    obtain ⟨k, v⟩ := kv
    by_cases hpk : p k = true
    · have hk : k = k0 := huniq k (by simp [keysOf]) hpk
      subst hk
      rw [List.find?_cons_of_pos _ (by simpa using hpk)]
      simp [alookup]
    · have hkne : ¬ k = k0 := fun he => hpk (he ▸ hk0)
      rw [List.find?_cons_of_neg _ (by simpa using hpk)]
      rw [ih (fun k' hk' hp => huniq k' (by simp [keysOf]; right; simpa [keysOf] using hk') hp)]
      simp [alookup, hkne]

theorem two_mem_length_ge {l : List String} {a b : String}
    (ha : a ∈ l) (hb : b ∈ l) (hne : a ≠ b) : 2 ≤ l.length := by
  calc 2 = ({a, b} : Finset String).card := (Finset.card_pair hne).symm
    _ ≤ l.toFinset.card := by
        apply Finset.card_le_card
        intro x hx
        rcases Finset.mem_insert.mp hx with hxa | hxb
        · subst hxa
          exact List.mem_toFinset.mpr ha
        · rw [Finset.mem_singleton] at hxb
          subst hxb
          exact List.mem_toFinset.mpr hb
    _ ≤ l.length := l.toFinset_card_le

theorem filter_le_one_unique {l : List String} {p : String → Bool}
    (hlen : (l.filter p).length ≤ 1) {a b : String} (ha : a ∈ l) (hb : b ∈ l)
    (hpa : p a = true) (hpb : p b = true) : a = b := by
  by_contra hne
  have h2 := two_mem_length_ge (List.mem_filter.mpr ⟨ha, hpa⟩)
    (List.mem_filter.mpr ⟨hb, hpb⟩) hne
  omega

/-! ### Equivalence-relation facts about `NEquiv` / `OEquiv` -/

theorem NEquiv.routeEq {n1 n2 : Node} (h : NEquiv n1 n2) : n1.route = n2.route := by
  cases h with
  | refl => rfl
  | congr c1 c2 r hsome hrel => rfl

theorem NEquiv.lookupSome {c1 c2 : List (String × Node)} {r1 r2 : Option Route}
    (h : NEquiv (.mk c1 r1) (.mk c2 r2)) (k : String) :
    (alookup c1 k).isSome = (alookup c2 k).isSome := by
  cases h with
  | refl => rfl
  | congr c1 c2 r hsome hrel => exact hsome k

theorem NEquiv.lookupRel {c1 c2 : List (String × Node)} {r1 r2 : Option Route}
    (h : NEquiv (.mk c1 r1) (.mk c2 r2)) {k : String} {n1 n2 : Node}
    (h1 : alookup c1 k = some n1) (h2 : alookup c2 k = some n2) :
    NEquiv n1 n2 := by
  cases h with
  | refl =>
    rw [h1] at h2
    injection h2 with h2
    rw [h2]
    exact NEquiv.refl n2
  | congr c1 c2 r hsome hrel => exact hrel k n1 n2 h1 h2

theorem NEquiv.transHelper : ∀ {a b : Node}, NEquiv a b →
    ∀ {c : Node}, NEquiv b c → NEquiv a c := by
  intro a b hab
  induction hab with
  | refl => intro c hbc; exact hbc
  | congr c1 c2 r hsome hrel ih =>
    intro c hbc
    cases hbc with
    | refl => exact NEquiv.congr c1 c2 r hsome hrel
    | congr _ c3 _ hsome' hrel' =>
      refine NEquiv.congr c1 c3 r (fun k => (hsome k).trans (hsome' k)) ?_
      intro k n1 n3 h1 h3
      have hm : (alookup c2 k).isSome = true := by
        rw [← hsome k, h1]
        rfl
      obtain ⟨n2, h2⟩ := Option.isSome_iff_exists.mp hm
      exact ih k n1 n2 h1 h2 (hrel' k n2 n3 h2 h3)

theorem OEquiv.rfl' (o : Option Node) : OEquiv o o := by
  cases o with
  | none => trivial
  | some n => exact NEquiv.refl n

theorem OEquiv.otrans {a b c : Option Node}
    (hab : OEquiv a b) (hbc : OEquiv b c) : OEquiv a c := by
  cases a <;> cases b <;> cases c <;>
    first
    | trivial
    | exact NEquiv.transHelper hab hbc

/-- Under the one-parameter-child / one-wildcard-child invariant,
`findMatchingChild` picks the same key in equivalent children maps, and the
chosen child is the map entry for that key. -/
theorem findMatchingChild_equiv
    {c1 c2 : List (String × Node)} (r1 r2 : Option Route) (seg : String)
    (hp : ((keysOf c1).filter (fun k => nodeTypeOf k = NodeType.paramNode)).length ≤ 1)
    (hw : ((keysOf c1).filter (fun k => nodeTypeOf k = NodeType.wildcardNode)).length ≤ 1)
    (hsome : ∀ k, (alookup c1 k).isSome = (alookup c2 k).isSome) :
    (findMatchingChild (.mk c1 r1) seg = none ∧
      findMatchingChild (.mk c2 r2) seg = none) ∨
    (∃ key ch1 ch2, findMatchingChild (.mk c1 r1) seg = some (key, ch1) ∧
      findMatchingChild (.mk c2 r2) seg = some (key, ch2) ∧
      alookup c1 key = some ch1 ∧ alookup c2 key = some ch2) := by
  cases hs1 : alookup c1 seg with
  | some ch1 =>
    have hs2 : (alookup c2 seg).isSome = true := by
      rw [← hsome seg, hs1]
      rfl
    obtain ⟨ch2, hch2⟩ := Option.isSome_iff_exists.mp hs2
    refine Or.inr ⟨seg, ch1, ch2, ?_, ?_, hs1, hch2⟩
    · unfold findMatchingChild
      simp [Node.children, hs1]
    · unfold findMatchingChild
      simp [Node.children, hch2]
  | none =>
    have hs2 : alookup c2 seg = none := by
      have h := (hsome seg).symm
      rw [hs1] at h
      cases ho : alookup c2 seg with
      | none => rfl
      | some x => rw [ho] at h; simp at h
    by_cases hex : ∃ k ∈ keysOf c1, nodeTypeOf k = NodeType.paramNode
    · obtain ⟨k0, hk0mem, hk0p⟩ := hex
      have huniq1 : ∀ k ∈ keysOf c1,
          decide (nodeTypeOf k = NodeType.paramNode) = true → k = k0 := by
        intro k hk hpk
        exact filter_le_one_unique hp hk hk0mem (by simpa using hpk) (by simpa using hk0p)
      have hfind1 := find_keyPred_unique
        (fun k => decide (nodeTypeOf k = NodeType.paramNode)) c1 k0
        (by simpa using hk0p) huniq1
      have huniq2 : ∀ k ∈ keysOf c2,
          decide (nodeTypeOf k = NodeType.paramNode) = true → k = k0 := by
        intro k hk hpk
        exact huniq1 k ((keys_mem_transfer hsome k).mpr hk) hpk
      have hfind2 := find_keyPred_unique
        (fun k => decide (nodeTypeOf k = NodeType.paramNode)) c2 k0
        (by simpa using hk0p) huniq2
      have hl1 : (alookup c1 k0).isSome = true := (alookup_isSome_iff c1 k0).mpr hk0mem
      obtain ⟨v1, hv1⟩ := Option.isSome_iff_exists.mp hl1
      have hl2 : (alookup c2 k0).isSome = true := by rw [← hsome k0]; exact hl1
      obtain ⟨v2, hv2⟩ := Option.isSome_iff_exists.mp hl2
      refine Or.inr ⟨k0, v1, v2, ?_, ?_, hv1, hv2⟩
      · unfold findMatchingChild
        simp [Node.children, hs1, hfind1, hv1]
      · unfold findMatchingChild
        simp [Node.children, hs2, hfind2, hv2]
    · push_neg at hex
      have hf1 : c1.find? (fun kc =>
          decide (nodeTypeOf kc.1 = NodeType.paramNode)) = none :=
        find_keyPred_none (fun k => decide (nodeTypeOf k = NodeType.paramNode)) c1
          (fun k hk => by simp [hex k hk])
      have hf2 : c2.find? (fun kc =>
          decide (nodeTypeOf kc.1 = NodeType.paramNode)) = none :=
        find_keyPred_none (fun k => decide (nodeTypeOf k = NodeType.paramNode)) c2
          (fun k hk => by simp [hex k ((keys_mem_transfer hsome k).mpr hk)])
      by_cases hexw : ∃ k ∈ keysOf c1, nodeTypeOf k = NodeType.wildcardNode
      · obtain ⟨k0, hk0mem, hk0w⟩ := hexw
        have huniq1 : ∀ k ∈ keysOf c1,
            decide (nodeTypeOf k = NodeType.wildcardNode) = true → k = k0 := by
          intro k hk hpk
          exact filter_le_one_unique hw hk hk0mem (by simpa using hpk) (by simpa using hk0w)
        have hfindw1 := find_keyPred_unique
          (fun k => decide (nodeTypeOf k = NodeType.wildcardNode)) c1 k0
          (by simpa using hk0w) huniq1
        have huniq2 : ∀ k ∈ keysOf c2,
            decide (nodeTypeOf k = NodeType.wildcardNode) = true → k = k0 := by
          intro k hk hpk
          exact huniq1 k ((keys_mem_transfer hsome k).mpr hk) hpk
        have hfindw2 := find_keyPred_unique
          (fun k => decide (nodeTypeOf k = NodeType.wildcardNode)) c2 k0
          (by simpa using hk0w) huniq2
        have hl1 : (alookup c1 k0).isSome = true := (alookup_isSome_iff c1 k0).mpr hk0mem
        obtain ⟨v1, hv1⟩ := Option.isSome_iff_exists.mp hl1
        have hl2 : (alookup c2 k0).isSome = true := by rw [← hsome k0]; exact hl1
        obtain ⟨v2, hv2⟩ := Option.isSome_iff_exists.mp hl2
        refine Or.inr ⟨k0, v1, v2, ?_, ?_, hv1, hv2⟩
        · unfold findMatchingChild
          simp [Node.children, hs1, hf1, hfindw1, hv1]
        · unfold findMatchingChild
          simp [Node.children, hs2, hf2, hfindw2, hv2]
      · push_neg at hexw
        have hfw1 : c1.find? (fun kc =>
            decide (nodeTypeOf kc.1 = NodeType.wildcardNode)) = none :=
          find_keyPred_none (fun k => decide (nodeTypeOf k = NodeType.wildcardNode)) c1
            (fun k hk => by simp [hexw k hk])
        have hfw2 : c2.find? (fun kc =>
            decide (nodeTypeOf kc.1 = NodeType.wildcardNode)) = none :=
          find_keyPred_none (fun k => decide (nodeTypeOf k = NodeType.wildcardNode)) c2
            (fun k hk => by simp [hexw k ((keys_mem_transfer hsome k).mpr hk)])
        refine Or.inl ⟨?_, ?_⟩
        · unfold findMatchingChild
          simp [Node.children, hs1, hf1, hfw1]
        · unfold findMatchingChild
          simp [Node.children, hs2, hf2, hfw2]

/-- Matching is insensitive to the enumeration order of the children maps,
provided the trie satisfies the one-parameter-child / one-wildcard-child
invariant: equivalent tries produce identical `findRoute` results, params
included. -/
theorem findRoute_respects_equiv :
    ∀ (segs : List String) (n1 n2 : Node) (params : List (String × String)),
      NWF n1 → NEquiv n1 n2 →
      findRoute n1 segs params = findRoute n2 segs params := by
  intro segs
  induction segs with
  | nil =>
    intro n1 n2 params hwf heq
    cases n1 with
    | mk c1 r1 =>
      cases n2 with
      | mk c2 r2 =>
        have hr := heq.routeEq
        simp only [Node.route] at hr
        simp [findRoute, Node.route, hr]
  | cons seg rest ih =>
    intro n1 n2 params hwf heq
    cases n1 with
    | mk c1 r1 =>
    cases n2 with
    | mk c2 r2 =>
    cases hwf with
    | mk _ _ hnd hp hw hch =>
    have hsome := heq.lookupSome
    rcases findMatchingChild_equiv r1 r2 seg hp hw hsome with
      ⟨e1, e2⟩ | ⟨key, ch1, ch2, e1, e2, hl1, hl2⟩
    · simp [findRoute, e1, e2]
    · have hrel := heq.lookupRel hl1 hl2
      have hwfch := hch key ch1 hl1
      simp only [findRoute, e1, e2]
      exact ih ch1 ch2 _ hwfch hrel

/-! ### Commutation helpers for trie insertion -/

theorem alookup_append_single {α : Type} (c : List (String × α)) (s k : String)
    (x : α) :
    alookup (c ++ [(s, x)]) k =
      match alookup c k with
      | some v => some v
      | none => if s = k then some x else none := by
  cases hc : alookup c k with
  | some v => simp [alookup_append_some _ hc]
  | none => simp [alookup_append_none _ hc, alookup]

theorem aupdate_comm {α : Type} (c : List (String × α)) {s1 s2 : String}
    (a b : α) (hne : s1 ≠ s2) :
    aupdate (aupdate c s1 a) s2 b = aupdate (aupdate c s2 b) s1 a := by
  induction c with
  | nil => simp [aupdate]
  | cons kv rest ih =>
    obtain ⟨k0, v0⟩ := kv
    by_cases h1 : k0 = s1
    · subst h1
      simp [aupdate, hne]
    · by_cases h2 : k0 = s2
      · subst h2
        simp [aupdate, h1]
      · simp [aupdate, h1, h2, ih]

theorem aupdate_append_left {α : Type} (c d : List (String × α)) (s : String)
    (u : α) (h : (alookup c s).isSome = true) :
    aupdate (c ++ d) s u = aupdate c s u ++ d := by
  induction c with
  | nil => simp [alookup] at h
  | cons kv rest ih =>
    obtain ⟨k0, v0⟩ := kv
    by_cases hk : k0 = s
    · subst hk
      simp [aupdate]
    · simp [alookup, hk] at h
      simp [aupdate, hk, ih h]

theorem aupdate_append_absent {α : Type} (c : List (String × α)) (k : String)
    (x w : α) (h : alookup c k = none) :
    aupdate (c ++ [(k, x)]) k w = c ++ [(k, w)] := by
  induction c with
  | nil => simp [aupdate]
  | cons kv rest ih =>
    obtain ⟨k0, v0⟩ := kv
    by_cases hk : k0 = k
    · subst hk
      simp [alookup] at h
    · simp [alookup, hk] at h
      simp [aupdate, hk, ih h]

theorem OEquiv.mapCongr {o1 o2 : Option Node} (g1 g2 : Node → Node)
    (hg : ∀ w1 w2, NEquiv w1 w2 → NEquiv (g1 w1) (g2 w2))
    (h : OEquiv o1 o2) : OEquiv (o1.map g1) (o2.map g2) := by
  cases o1 with
  | none =>
    cases o2 with
    | none => trivial
    | some x => exact absurd h (by simp [OEquiv])
  | some x1 =>
    cases o2 with
    | none => exact absurd h (by simp [OEquiv])
    | some x2 => exact hg x1 x2 h

theorem update_wrap_equiv {c1 c2 : List (String × Node)} (s : String)
    (rt : Option Route) (h1 : (alookup c1 s).isSome = true)
    (h2 : (alookup c2 s).isSome = true)
    (hsome : ∀ k, (alookup c1 k).isSome = (alookup c2 k).isSome)
    (hrel : ∀ k n1 n2, alookup c1 k = some n1 → alookup c2 k = some n2 →
      NEquiv n1 n2)
    {w1 w2 : Node} (hw : NEquiv w1 w2) :
    NEquiv (.mk (aupdate c1 s w1) rt) (.mk (aupdate c2 s w2) rt) := by
  refine NEquiv.congr _ _ _ ?_ ?_
  · intro k
    by_cases hk : k = s
    · subst hk
      rw [alookup_aupdate_self w1 h1, alookup_aupdate_self w2 h2]
      rfl
    · rw [alookup_aupdate_ne _ _ _ _ hk, alookup_aupdate_ne _ _ _ _ hk]
      exact hsome k
  · intro k n1 n2 hn1 hn2
    by_cases hk : k = s
    · subst hk
      rw [alookup_aupdate_self w1 h1] at hn1
      rw [alookup_aupdate_self w2 h2] at hn2
      injection hn1 with hn1
      injection hn2 with hn2
      rw [← hn1, ← hn2]
      exact hw
    · rw [alookup_aupdate_ne _ _ _ _ hk] at hn1
      rw [alookup_aupdate_ne _ _ _ _ hk] at hn2
      exact hrel k n1 n2 hn1 hn2

theorem append_wrap_equiv {c1 c2 : List (String × Node)} (s : String)
    (rt : Option Route) (h1 : alookup c1 s = none) (h2 : alookup c2 s = none)
    (hsome : ∀ k, (alookup c1 k).isSome = (alookup c2 k).isSome)
    (hrel : ∀ k n1 n2, alookup c1 k = some n1 → alookup c2 k = some n2 →
      NEquiv n1 n2)
    {w1 w2 : Node} (hw : NEquiv w1 w2) :
    NEquiv (.mk (c1 ++ [(s, w1)]) rt) (.mk (c2 ++ [(s, w2)]) rt) := by
  refine NEquiv.congr _ _ _ ?_ ?_
  · intro k
    rw [alookup_append_single, alookup_append_single]
    by_cases hk : s = k
    · subst hk
      rw [h1, h2]
      simp
    · cases hc1 : alookup c1 k with
      | some v =>
        have hb : (alookup c2 k).isSome = true := by rw [← hsome k, hc1]; rfl
        obtain ⟨v2, hv2⟩ := Option.isSome_iff_exists.mp hb
        rw [hv2]
        rfl
      | none =>
        have hb : alookup c2 k = none := by
          have h := (hsome k).symm
          rw [hc1] at h
          cases ho : alookup c2 k with
          | none => rfl
          | some x => rw [ho] at h; simp at h
        rw [hb]
        simp [hk]
  · intro k n1 n2 hn1 hn2
    rw [alookup_append_single] at hn1 hn2
    by_cases hk : s = k
    · subst hk
      rw [h1] at hn1
      rw [h2] at hn2
      simp at hn1 hn2
      rw [← hn1, ← hn2]
      exact hw
    · cases hc1 : alookup c1 k with
      | some v =>
        rw [hc1] at hn1
        have hb : (alookup c2 k).isSome = true := by rw [← hsome k, hc1]; rfl
        obtain ⟨v2, hv2⟩ := Option.isSome_iff_exists.mp hb
        rw [hv2] at hn2
        injection hn1 with hn1
        injection hn2 with hn2
        exact hn1 ▸ hn2 ▸ hrel k v v2 hc1 hv2
      | none =>
        rw [hc1] at hn1
        simp [hk] at hn1

theorem append_two_swap_equiv (c : List (String × Node)) {s1 s2 : String}
    (f1 f2 : Node) (hne : s1 ≠ s2) (rt : Option Route) :
    NEquiv (.mk (c ++ [(s1, f1), (s2, f2)]) rt)
      (.mk (c ++ [(s2, f2), (s1, f1)]) rt) := by
  have hlook : ∀ k, alookup (c ++ [(s1, f1), (s2, f2)]) k =
      alookup (c ++ [(s2, f2), (s1, f1)]) k := by
    intro k
    cases hc : alookup c k with
    | some v => rw [alookup_append_some _ hc, alookup_append_some _ hc]
    | none =>
      rw [alookup_append_none _ hc, alookup_append_none _ hc]
      by_cases hk1 : s1 = k
      · subst hk1
        have hns : ¬ s2 = s1 := fun h => hne h.symm
        simp [alookup, hne, hns]
      · by_cases hk2 : s2 = k
        · subst hk2
          simp [alookup, hk1]
        · simp [alookup, hk1, hk2]
  refine NEquiv.congr _ _ _ (fun k => by rw [hlook k]) ?_
  intro k n1 n2 hn1 hn2
  rw [hlook k] at hn1
  rw [hn1] at hn2
  injection hn2 with hn2
  rw [hn2]
  exact NEquiv.refl _

theorem single_wrap_equiv (s : String) (rt : Option Route) {w1 w2 : Node}
    (hw : NEquiv w1 w2) : NEquiv (.mk [(s, w1)] rt) (.mk [(s, w2)] rt) := by
  refine NEquiv.congr _ _ _ ?_ ?_
  · intro k
    by_cases hk : s = k <;> simp [alookup, hk]
  · intro k n1 n2 hn1 hn2
    by_cases hk : s = k
    · simp [alookup, hk] at hn1 hn2
      rw [← hn1, ← hn2]
      exact hw
    · simp [alookup, hk] at hn1

/-- Inserting a path into a fresh empty node always succeeds and produces
the fresh chain. -/
theorem insertPath_empty (p : List String) (r : Route) :
    insertPath (.mk [] none) p r = some (freshPath p r) := by
  induction p with
  | nil => rfl
  | cons s rest ih => simp [insertPath, alookup, ih, freshPath]

/-- `AddRoute`'s walk maps equivalent tries to equivalent tries (or fails on
both). -/
theorem insertPath_respects_equiv :
    ∀ (p : List String) (t1 t2 : Node) (r : Route), NEquiv t1 t2 →
      OEquiv (insertPath t1 p r) (insertPath t2 p r) := by
  intro p
  induction p with
  | nil =>
    intro t1 t2 r heq
    cases t1 with
    | mk c1 r1 =>
    cases t2 with
    | mk c2 r2 =>
    have hr := heq.routeEq
    simp only [Node.route] at hr
    subst hr
    cases r1 with
    | some rr => simp [insertPath, OEquiv]
    | none =>
      simp only [insertPath]
      exact NEquiv.congr _ _ _ heq.lookupSome
        (fun k n1 n2 h1 h2 => heq.lookupRel h1 h2)
  | cons seg rest ih =>
    intro t1 t2 r heq
    cases t1 with
    | mk c1 r1 =>
    cases t2 with
    | mk c2 r2 =>
    have hr := heq.routeEq
    simp only [Node.route] at hr
    subst hr
    have hsome := heq.lookupSome
    cases hs1 : alookup c1 seg with
    | some ch1 =>
      have hb : (alookup c2 seg).isSome = true := by rw [← hsome seg, hs1]; rfl
      obtain ⟨ch2, hs2⟩ := Option.isSome_iff_exists.mp hb
      have hrel := heq.lookupRel hs1 hs2
      have hrec := ih ch1 ch2 r hrel
      simp only [insertPath, hs1, hs2]
      refine OEquiv.mapCongr _ _ ?_ hrec
      intro w1 w2 hw
      exact update_wrap_equiv seg r1 (by rw [hs1]; rfl) (by rw [hs2]; rfl) hsome
        (fun k n1 n2 h1 h2 => heq.lookupRel h1 h2) hw
    | none =>
      have hs2 : alookup c2 seg = none := by
        have h := (hsome seg).symm
        rw [hs1] at h
        cases ho : alookup c2 seg with
        | none => rfl
        | some x => rw [ho] at h; simp at h
      simp only [insertPath, hs1, hs2]
      refine OEquiv.mapCongr _ _ ?_ (OEquiv.rfl' _)
      intro w1 w2 hw
      exact append_wrap_equiv seg r1 hs1 hs2 hsome
        (fun k n1 n2 h1 h2 => heq.lookupRel h1 h2) hw

/-- Inserting two paths into an empty trie commutes (up to children
enumeration order). -/
theorem fresh_swap : ∀ (p1 : List String) (r1 : Route) (p2 : List String)
    (r2 : Route),
    OEquiv (insertPath (freshPath p1 r1) p2 r2)
      (insertPath (freshPath p2 r2) p1 r1) := by
  intro p1
  induction p1 with
  | nil =>
    intro r1 p2 r2
    cases p2 with
    | nil => simp [freshPath, insertPath, OEquiv]
    | cons s2 t2 =>
      have hL : insertPath (freshPath ([] : List String) r1) (s2 :: t2) r2 =
          some (.mk [(s2, freshPath t2 r2)] (some r1)) := by
        simp [freshPath, insertPath, alookup, insertPath_empty]
      have hR : insertPath (freshPath (s2 :: t2) r2) ([] : List String) r1 =
          some (.mk [(s2, freshPath t2 r2)] (some r1)) := by
        simp [freshPath, insertPath]
      rw [hL, hR]
      exact OEquiv.rfl' _
  | cons s1 t1 ih =>
    intro r1 p2 r2
    cases p2 with
    | nil =>
      have hL : insertPath (freshPath (s1 :: t1) r1) ([] : List String) r2 =
          some (.mk [(s1, freshPath t1 r1)] (some r2)) := by
        simp [freshPath, insertPath]
      have hR : insertPath (freshPath ([] : List String) r2) (s1 :: t1) r1 =
          some (.mk [(s1, freshPath t1 r1)] (some r2)) := by
        simp [freshPath, insertPath, alookup, insertPath_empty]
      rw [hL, hR]
      exact OEquiv.rfl' _
    | cons s2 t2 =>
      by_cases hs : s1 = s2
      · subst hs
        have hrec := ih r1 t2 r2
        simp only [freshPath, insertPath, alookup, if_pos rfl, aupdate]
        refine OEquiv.mapCongr _ _ ?_ hrec
        intro w1 w2 hw
        exact single_wrap_equiv s1 none hw
      · have hsym : ¬ s2 = s1 := fun h => hs h.symm
        have hL : insertPath (freshPath (s1 :: t1) r1) (s2 :: t2) r2 =
            some (.mk [(s1, freshPath t1 r1), (s2, freshPath t2 r2)] none) := by
          simp [freshPath, insertPath, alookup, hs, insertPath_empty]
        have hR : insertPath (freshPath (s2 :: t2) r2) (s1 :: t1) r1 =
            some (.mk [(s2, freshPath t2 r2), (s1, freshPath t1 r1)] none) := by
          simp [freshPath, insertPath, alookup, hsym, insertPath_empty]
        rw [hL, hR]
        exact append_two_swap_equiv [] (freshPath t1 r1) (freshPath t2 r2) hs none

theorem update_wrap_equiv_self (c : List (String × Node)) (s : String)
    (rt : Option Route) (h : (alookup c s).isSome = true) {w1 w2 : Node}
    (hw : NEquiv w1 w2) :
    NEquiv (.mk (aupdate c s w1) rt) (.mk (aupdate c s w2) rt) :=
  update_wrap_equiv s rt h h (fun _ => rfl)
    (fun k n1 n2 h1 h2 => by
      rw [h1] at h2
      injection h2 with h2
      rw [h2]
      exact NEquiv.refl _) hw

theorem append_wrap_equiv_self (c : List (String × Node)) (s : String)
    (rt : Option Route) (h : alookup c s = none) {w1 w2 : Node}
    (hw : NEquiv w1 w2) :
    NEquiv (.mk (c ++ [(s, w1)]) rt) (.mk (c ++ [(s, w2)]) rt) :=
  append_wrap_equiv s rt h h (fun _ => rfl)
    (fun k n1 n2 h1 h2 => by
      rw [h1] at h2
      injection h2 with h2
      rw [h2]
      exact NEquiv.refl _) hw

/-- Inserting two route paths commutes up to children enumeration order:
the two insertion orders either both fail or produce equivalent tries. -/
theorem insertPath_swap : ∀ (p1 : List String) (r1 : Route) (p2 : List String)
    (r2 : Route) (t : Node),
    OEquiv ((insertPath t p1 r1).bind (fun u => insertPath u p2 r2))
      ((insertPath t p2 r2).bind (fun u => insertPath u p1 r1)) := by
  intro p1
  induction p1 with
  | nil =>
    intro r1 p2 r2 t
    cases t with
    | mk c rt =>
    cases p2 with
    | nil =>
      cases rt with
      | some rr => simp [insertPath, OEquiv]
      | none => simp [insertPath, OEquiv]
    | cons s2 t2 =>
      cases rt with
      | some rr =>
        cases halk : alookup c s2 with
        | some ch =>
          cases hi : insertPath ch t2 r2 with
          | none => simp [insertPath, halk, hi, OEquiv]
          | some w => simp [insertPath, halk, hi, OEquiv]
        | none => simp [insertPath, halk, insertPath_empty, OEquiv]
      | none =>
        cases halk : alookup c s2 with
        | some ch =>
          cases hi : insertPath ch t2 r2 with
          | none => simp [insertPath, halk, hi, OEquiv]
          | some w =>
            simp [insertPath, halk, hi]
            exact NEquiv.refl _
        | none =>
          simp [insertPath, halk, insertPath_empty]
          exact NEquiv.refl _
  | cons s1 t1 ih =>
    intro r1 p2 r2 t
    cases t with
    | mk c rt =>
    cases p2 with
    | nil =>
      cases rt with
      | some rr =>
        cases halk : alookup c s1 with
        | some ch =>
          cases hi : insertPath ch t1 r1 with
          | none => simp [insertPath, halk, hi, OEquiv]
          | some w => simp [insertPath, halk, hi, OEquiv]
        | none => simp [insertPath, halk, insertPath_empty, OEquiv]
      | none =>
        cases halk : alookup c s1 with
        | some ch =>
          cases hi : insertPath ch t1 r1 with
          | none => simp [insertPath, halk, hi, OEquiv]
          | some w =>
            simp [insertPath, halk, hi]
            exact NEquiv.refl _
        | none =>
          simp [insertPath, halk, insertPath_empty]
          exact NEquiv.refl _
    | cons s2 t2 =>
      by_cases hs : s1 = s2
      · subst hs
        cases halk : alookup c s1 with
        | some ch =>
          have hupd : ∀ u : Node, alookup (aupdate c s1 u) s1 = some u :=
            fun u => alookup_aupdate_self u (by rw [halk]; rfl)
          have eqA : (insertPath (.mk c rt) (s1 :: t1) r1).bind
                (fun u => insertPath u (s1 :: t2) r2) =
              ((insertPath ch t1 r1).bind (fun u => insertPath u t2 r2)).map
                (fun w => .mk (aupdate c s1 w) rt) := by
            cases hi1 : insertPath ch t1 r1 with
            | none => simp [insertPath, halk, hi1]
            | some u1 =>
              cases hi2 : insertPath u1 t2 r2 with
              | none => simp [insertPath, halk, hi1, hupd u1, hi2]
              | some w =>
                simp [insertPath, halk, hi1, hupd u1, hi2, aupdate_aupdate]
          have eqB : (insertPath (.mk c rt) (s1 :: t2) r2).bind
                (fun u => insertPath u (s1 :: t1) r1) =
              ((insertPath ch t2 r2).bind (fun u => insertPath u t1 r1)).map
                (fun w => .mk (aupdate c s1 w) rt) := by
            cases hi1 : insertPath ch t2 r2 with
            | none => simp [insertPath, halk, hi1]
            | some u1 =>
              cases hi2 : insertPath u1 t1 r1 with
              | none => simp [insertPath, halk, hi1, hupd u1, hi2]
              | some w =>
                simp [insertPath, halk, hi1, hupd u1, hi2, aupdate_aupdate]
          rw [eqA, eqB]
          refine OEquiv.mapCongr _ _ ?_ (ih r1 t2 r2 ch)
          intro w1 w2 hw
          exact update_wrap_equiv_self c s1 rt (by rw [halk]; rfl) hw
        | none =>
          have hlookf : ∀ w : Node, alookup (c ++ [(s1, w)]) s1 = some w := by
            intro w
            rw [alookup_append_none _ halk]
            simp [alookup]
          have eqA : (insertPath (.mk c rt) (s1 :: t1) r1).bind
                (fun u => insertPath u (s1 :: t2) r2) =
              (insertPath (freshPath t1 r1) t2 r2).map
                (fun w => .mk (c ++ [(s1, w)]) rt) := by
            cases hi : insertPath (freshPath t1 r1) t2 r2 with
            | none =>
              simp [insertPath, halk, insertPath_empty, hlookf (freshPath t1 r1), hi]
            | some w =>
              simp [insertPath, halk, insertPath_empty, hlookf (freshPath t1 r1),
                hi, aupdate_append_absent _ _ _ _ halk]
          have eqB : (insertPath (.mk c rt) (s1 :: t2) r2).bind
                (fun u => insertPath u (s1 :: t1) r1) =
              (insertPath (freshPath t2 r2) t1 r1).map
                (fun w => .mk (c ++ [(s1, w)]) rt) := by
            cases hi : insertPath (freshPath t2 r2) t1 r1 with
            | none =>
              simp [insertPath, halk, insertPath_empty, hlookf (freshPath t2 r2), hi]
            | some w =>
              simp [insertPath, halk, insertPath_empty, hlookf (freshPath t2 r2),
                hi, aupdate_append_absent _ _ _ _ halk]
          rw [eqA, eqB]
          refine OEquiv.mapCongr _ _ ?_ (fresh_swap t1 r1 t2 r2)
          intro w1 w2 hw
          exact append_wrap_equiv_self c s1 rt halk hw
      · have hsym : ¬ s2 = s1 := fun h => hs h.symm
        cases halk1 : alookup c s1 with
        | some ch1 =>
          cases halk2 : alookup c s2 with
          | some ch2 =>
            have eqA : (insertPath (.mk c rt) (s1 :: t1) r1).bind
                  (fun u => insertPath u (s2 :: t2) r2) =
                (insertPath ch1 t1 r1).bind (fun u1 =>
                  (insertPath ch2 t2 r2).map (fun u2 =>
                    .mk (aupdate (aupdate c s1 u1) s2 u2) rt)) := by
              cases hi1 : insertPath ch1 t1 r1 with
              | none => simp [insertPath, halk1, hi1]
              | some u1 =>
                have hl2 : alookup (aupdate c s1 u1) s2 = some ch2 := by
                  rw [alookup_aupdate_ne _ _ _ _ hsym]
                  exact halk2
                cases hi2 : insertPath ch2 t2 r2 with
                | none => simp [insertPath, halk1, hi1, hl2, hi2]
                | some u2 => simp [insertPath, halk1, hi1, hl2, hi2]
            have eqB : (insertPath (.mk c rt) (s2 :: t2) r2).bind
                  (fun u => insertPath u (s1 :: t1) r1) =
                (insertPath ch2 t2 r2).bind (fun u2 =>
                  (insertPath ch1 t1 r1).map (fun u1 =>
                    .mk (aupdate (aupdate c s2 u2) s1 u1) rt)) := by
              cases hi2 : insertPath ch2 t2 r2 with
              | none => simp [insertPath, halk2, hi2]
              | some u2 =>
                have hl1 : alookup (aupdate c s2 u2) s1 = some ch1 := by
                  rw [alookup_aupdate_ne _ _ _ _ hs]
                  exact halk1
                cases hi1 : insertPath ch1 t1 r1 with
                | none => simp [insertPath, halk2, hi2, hl1, hi1]
                | some u1 => simp [insertPath, halk2, hi2, hl1, hi1]
            rw [eqA, eqB]
            cases hi1 : insertPath ch1 t1 r1 with
            | none =>
              cases hi2 : insertPath ch2 t2 r2 with
              | none => trivial
              | some u2 => simp [OEquiv]
            | some u1 =>
              cases hi2 : insertPath ch2 t2 r2 with
              | none => simp [OEquiv]
              | some u2 =>
                have hcomm := aupdate_comm c u1 u2 hs
                show OEquiv (some (Node.mk (aupdate (aupdate c s1 u1) s2 u2) rt))
                  (some (Node.mk (aupdate (aupdate c s2 u2) s1 u1) rt))
                rw [hcomm]
                exact OEquiv.rfl' _
          | none =>
            have eqA : (insertPath (.mk c rt) (s1 :: t1) r1).bind
                  (fun u => insertPath u (s2 :: t2) r2) =
                (insertPath ch1 t1 r1).map (fun u1 =>
                  .mk (aupdate c s1 u1 ++ [(s2, freshPath t2 r2)]) rt) := by
              cases hi1 : insertPath ch1 t1 r1 with
              | none => simp [insertPath, halk1, hi1]
              | some u1 =>
                have hl2 : alookup (aupdate c s1 u1) s2 = none := by
                  rw [alookup_aupdate_ne _ _ _ _ hsym]
                  exact halk2
                simp [insertPath, halk1, hi1, hl2, insertPath_empty]
            have eqB : (insertPath (.mk c rt) (s2 :: t2) r2).bind
                  (fun u => insertPath u (s1 :: t1) r1) =
                (insertPath ch1 t1 r1).map (fun u1 =>
                  .mk (aupdate c s1 u1 ++ [(s2, freshPath t2 r2)]) rt) := by
              have hl1 : alookup (c ++ [(s2, freshPath t2 r2)]) s1 = some ch1 :=
                alookup_append_some _ halk1
              cases hi1 : insertPath ch1 t1 r1 with
              | none => simp [insertPath, halk2, insertPath_empty, hl1, hi1]
              | some u1 =>
                simp [insertPath, halk2, insertPath_empty, hl1, hi1,
                  aupdate_append_left _ _ _ _ (by rw [halk1]; rfl)]
            rw [eqA, eqB]
            exact OEquiv.rfl' _
        | none =>
          cases halk2 : alookup c s2 with
          | some ch2 =>
            have eqA : (insertPath (.mk c rt) (s1 :: t1) r1).bind
                  (fun u => insertPath u (s2 :: t2) r2) =
                (insertPath ch2 t2 r2).map (fun u2 =>
                  .mk (aupdate c s2 u2 ++ [(s1, freshPath t1 r1)]) rt) := by
              have hl2 : alookup (c ++ [(s1, freshPath t1 r1)]) s2 = some ch2 :=
                alookup_append_some _ halk2
              cases hi2 : insertPath ch2 t2 r2 with
              | none => simp [insertPath, halk1, insertPath_empty, hl2, hi2]
              | some u2 =>
                simp [insertPath, halk1, insertPath_empty, hl2, hi2,
                  aupdate_append_left _ _ _ _ (by rw [halk2]; rfl)]
            have eqB : (insertPath (.mk c rt) (s2 :: t2) r2).bind
                  (fun u => insertPath u (s1 :: t1) r1) =
                (insertPath ch2 t2 r2).map (fun u2 =>
                  .mk (aupdate c s2 u2 ++ [(s1, freshPath t1 r1)]) rt) := by
              cases hi2 : insertPath ch2 t2 r2 with
              | none => simp [insertPath, halk2, hi2]
              | some u2 =>
                have hl1 : alookup (aupdate c s2 u2) s1 = none := by
                  rw [alookup_aupdate_ne _ _ _ _ hs]
                  exact halk1
                simp [insertPath, halk2, hi2, hl1, insertPath_empty]
            rw [eqA, eqB]
            exact OEquiv.rfl' _
          | none =>
            have hl2 : alookup (c ++ [(s1, freshPath t1 r1)]) s2 = none := by
              rw [alookup_append_none _ halk2]
              simp [alookup, hs]
            have hl1 : alookup (c ++ [(s2, freshPath t2 r2)]) s1 = none := by
              rw [alookup_append_none _ halk1]
              simp [alookup, hsym]
            have eqA : (insertPath (.mk c rt) (s1 :: t1) r1).bind
                  (fun u => insertPath u (s2 :: t2) r2) =
                some (.mk (c ++ [(s1, freshPath t1 r1), (s2, freshPath t2 r2)]) rt) := by
              simp [insertPath, halk1, insertPath_empty, hl2, List.append_assoc]
            have eqB : (insertPath (.mk c rt) (s2 :: t2) r2).bind
                  (fun u => insertPath u (s1 :: t1) r1) =
                some (.mk (c ++ [(s2, freshPath t2 r2), (s1, freshPath t1 r1)]) rt) := by
              simp [insertPath, halk2, insertPath_empty, hl1, List.append_assoc]
            rw [eqA, eqB]
            exact append_two_swap_equiv c (freshPath t1 r1) (freshPath t2 r2) hs rt

theorem OEquiv.bindCongr {o1 o2 : Option Node} (f g : Node → Option Node)
    (hfg : ∀ u1 u2, NEquiv u1 u2 → OEquiv (f u1) (g u2)) (h : OEquiv o1 o2) :
    OEquiv (o1.bind f) (o2.bind g) := by
  cases o1 with
  | none =>
    cases o2 with
    | none => trivial
    | some x => exact absurd h (by simp [OEquiv])
  | some u1 =>
    cases o2 with
    | none => exact absurd h (by simp [OEquiv])
    | some u2 => exact hfg u1 u2 h

theorem addRoute_respects_equiv (t1 t2 : Node) (r : Route) (heq : NEquiv t1 t2) :
    OEquiv (addRoute t1 r) (addRoute t2 r) := by
  unfold addRoute
  by_cases hp : r.path = ""
  · simp [hp]
    trivial
  · simp only [hp, if_false]
    exact insertPath_respects_equiv _ t1 t2 r heq

theorem addRoute_swap (r1 r2 : Route) (t : Node) :
    OEquiv ((addRoute t r1).bind (fun u => addRoute u r2))
      ((addRoute t r2).bind (fun u => addRoute u r1)) := by
  by_cases h1 : r1.path = ""
  · have hA : (addRoute t r1).bind (fun u => addRoute u r2) = none := by
      simp [addRoute, h1]
    have hB : (addRoute t r2).bind (fun u => addRoute u r1) = none := by
      cases ho : addRoute t r2 with
      | none => rfl
      | some u => simp [addRoute, h1]
    rw [hA, hB]
    trivial
  · by_cases h2 : r2.path = ""
    · have hA : (addRoute t r1).bind (fun u => addRoute u r2) = none := by
        cases ho : addRoute t r1 with
        | none => rfl
        | some u => simp [addRoute, h2]
      have hB : (addRoute t r2).bind (fun u => addRoute u r1) = none := by
        simp [addRoute, h2]
      rw [hA, hB]
      trivial
    · simp only [addRoute, h1, h2, if_false]
      exact insertPath_swap (splitPath r1.path) r1 (splitPath r2.path) r2 t

theorem foldAdd_cons (t : Node) (r : Route) (l : List Route) :
    foldAdd t (r :: l) = (addRoute t r).bind (fun u => foldAdd u l) := by
  cases ho : addRoute t r with
  | none => simp [foldAdd, List.foldlM_cons, ho]
  | some u => simp [foldAdd, List.foldlM_cons, ho]

theorem foldAdd_congr : ∀ (l : List Route) (t1 t2 : Node), NEquiv t1 t2 →
    OEquiv (foldAdd t1 l) (foldAdd t2 l) := by
  intro l
  induction l with
  | nil => intro t1 t2 heq; exact heq
  | cons r l ih =>
    intro t1 t2 heq
    rw [foldAdd_cons, foldAdd_cons]
    exact OEquiv.bindCongr _ _ (fun u1 u2 hu => ih u1 u2 hu)
      (addRoute_respects_equiv t1 t2 r heq)

theorem foldAdd_perm {l1 l2 : List Route} (hperm : l1.Perm l2) :
    ∀ (t1 t2 : Node), NEquiv t1 t2 →
      OEquiv (foldAdd t1 l1) (foldAdd t2 l2) := by
  induction hperm with
  | nil => intro t1 t2 heq; exact heq
  | cons x hsub ih =>
    intro t1 t2 heq
    rw [foldAdd_cons, foldAdd_cons]
    exact OEquiv.bindCongr _ _ (fun u1 u2 hu => ih u1 u2 hu)
      (addRoute_respects_equiv t1 t2 x heq)
  | swap x y l =>
    intro t1 t2 heq
    have hA : foldAdd t1 (y :: x :: l) =
        ((addRoute t1 y).bind (fun u => addRoute u x)).bind
          (fun v => foldAdd v l) := by
      rw [foldAdd_cons]
      cases ha : addRoute t1 y with
      | none => rfl
      | some u => simp [foldAdd_cons]
    have hB : foldAdd t2 (x :: y :: l) =
        ((addRoute t2 x).bind (fun u => addRoute u y)).bind
          (fun v => foldAdd v l) := by
      rw [foldAdd_cons]
      cases ha : addRoute t2 x with
      | none => rfl
      | some u => simp [foldAdd_cons]
    rw [hA, hB]
    have step2 : OEquiv ((addRoute t1 x).bind (fun u => addRoute u y))
        ((addRoute t2 x).bind (fun u => addRoute u y)) :=
      OEquiv.bindCongr _ _ (fun u1 u2 hu => addRoute_respects_equiv u1 u2 y hu)
        (addRoute_respects_equiv t1 t2 x heq)
    have step : OEquiv ((addRoute t1 y).bind (fun u => addRoute u x))
        ((addRoute t2 x).bind (fun u => addRoute u y)) :=
      OEquiv.otrans (addRoute_swap y x t1) step2
    exact OEquiv.bindCongr _ _ (fun v1 v2 hv => foldAdd_congr l v1 v2 hv) step
  | trans hp1 hp2 ih1 ih2 =>
    intro t1 t2 heq
    exact OEquiv.otrans (ih1 t1 t1 (NEquiv.refl t1)) (ih2 t1 t2 heq)

theorem nwfB_sound : ∀ (fuel : Nat) (n : Node), nwfB fuel n = true → NWF n := by
  intro fuel
  induction fuel with
  | zero => intro n h; simp [nwfB] at h
  | succ fuel ih =>
    intro n h
    cases n with
    | mk c r =>
      simp only [nwfB, Bool.and_eq_true, decide_eq_true_eq] at h
      obtain ⟨⟨⟨hnd, hp⟩, hw⟩, hall⟩ := h
      refine NWF.mk c r hnd hp hw ?_
      intro k nn hlook
      have hmem := alookup_eq_some_mem hlook
      exact ih nn (List.all_eq_true.mp hall ⟨k, nn⟩ hmem)

/-- C6 counterexample: the routes `/a/:x` and `/a/:y/b` give the node `a`
two parameter children; inserting them in the two possible orders yields
tries whose `Match("GET", "/a/s")` results differ (found vs not found), so
the match result is not a function of the route set, method and path
alone. -/
theorem match_order_dependent_counterexample :
    [routeParamX, routeParamYB].Perm [routeParamYB, routeParamX] ∧
    exceptIsOk (routerMatch trieParamOrder1 "GET" "/a/s") = true ∧
    exceptIsOk (routerMatch trieParamOrder2 "GET" "/a/s") = false :=
  ⟨List.Perm.swap routeParamYB routeParamX [], rfl, rfl⟩

/-- C6 (amended): provided the built trie satisfies the documented
invariant — at most one parameter child and at most one wildcard child
under each node (`NWF`) — the match result for every `(method, path)` is
independent of the order in which the same set of routes was inserted. -/
theorem match_insertion_order_invariant
    (l1 l2 : List Route) (t1 t2 : Node) (hperm : l1.Perm l2)
    (h1 : buildRouter l1 = some t1) (h2 : buildRouter l2 = some t2)
    (hwf : NWF t1) (method path : String) :
    routerMatch t1 method path = routerMatch t2 method path := by
  have hoe : OEquiv (buildRouter l1) (buildRouter l2) :=
    foldAdd_perm hperm (Node.mk [] none) (Node.mk [] none) (NEquiv.refl _)
  rw [h1, h2] at hoe
  have heq : NEquiv t1 t2 := hoe
  have hfr := findRoute_respects_equiv (splitPath path) t1 t2 [] hwf heq
  unfold routerMatch
  rw [hfr]

/-- Witness for C6: `/a` and `/b` inserted in both orders match `/a`
identically. -/
theorem match_insertion_order_invariant_witness :
    routerMatch trieAB1 "GET" "/a" = routerMatch trieAB2 "GET" "/a" :=
  match_insertion_order_invariant [routeStaticA, routeStaticB]
    [routeStaticB, routeStaticA] trieAB1 trieAB2
    (List.Perm.swap routeStaticB routeStaticA []) rfl rfl
    (nwfB_sound 3 trieAB1 (by decide)) "GET" "/a"

end ArchSample
